import Mathlib

/-!
# GuardedIM control plane: registry store, IP-claim handler and peer synchronizer

A shallow embedding of the Go sources under `server/` (`addServer.go`, `addUser.go`,
`controlUtils.go`, `updateConnection.go`) together with the library functions they call
(`net.ParseIP`, `base64.StdEncoding.DecodeString`, `utf8.ValidString`, `wgtypes.ParseKey`).

Go strings and byte slices are byte sequences; they are modelled as lists of natural
numbers, each byte being a number below 256.  Times are nanosecond counts.
-/

namespace GuardedIM

/-- A Go string or byte slice: its bytes in order. -/
abbrev Bytes := List Nat

/-- The bytes of a string literal (UTF-8). -/
def str (s : String) : Bytes :=
  (s.data.flatMap String.utf8EncodeChar).map UInt8.toNat

/-! ## encoding/base64, wgtypes.ParseKey -/

/-- Value of a character in the standard base64 alphabet. -/
def b64val (c : Nat) : Option Nat :=
  if 65 ≤ c ∧ c ≤ 90 then some (c - 65)
  else if 97 ≤ c ∧ c ≤ 122 then some (c - 97 + 26)
  else if 48 ≤ c ∧ c ≤ 57 then some (c - 48 + 52)
  else if c = 43 then some 62
  else if c = 47 then some 63
  else none

/-- Decoding of the input quanta once carriage returns and line feeds are dropped: full
quanta of four alphabet characters give three bytes, a final quantum may be padded with
one or two `=`, and nothing may follow the padding. -/
def decodeQuanta : Bytes → Option Bytes
  | [] => some []
  | [a, b, 61, 61] =>
    match b64val a, b64val b with
    | some x, some y => some [(x * 4 + y / 16) % 256]
    | _, _ => none
  | [a, b, c, 61] =>
    match b64val a, b64val b, b64val c with
    | some x, some y, some z => some [(x * 4 + y / 16) % 256, (y * 16 + z / 4) % 256]
    | _, _, _ => none
  | a :: b :: c :: d :: rest =>
    match b64val a, b64val b, b64val c, b64val d with
    | some x, some y, some z, some w =>
      match decodeQuanta rest with
      | some out =>
        some ((x * 4 + y / 16) % 256 :: (y * 16 + z / 4) % 256 :: (z * 64 + w) % 256 :: out)
      | none => none
    | _, _, _, _ => none
  | _ => none

/-- The function `base64.StdEncoding.DecodeString`: `none` when it returns an error. -/
def base64Decode (s : Bytes) : Option Bytes :=
  decodeQuanta (s.filter fun c => c ≠ 13 ∧ c ≠ 10)

/-- Length of a WireGuard key. -/
def KeyLen : Nat := 32

/-- The function `wgtypes.NewKey`: fails unless the slice has exactly 32 bytes. -/
def NewKey (b : Bytes) : Option Bytes :=
  if b.length = KeyLen then some b else none

/-- The function `wgtypes.ParseKey`: base64-decode, then `NewKey`. -/
def ParseKey (s : Bytes) : Option Bytes :=
  match base64Decode s with
  | some b => NewKey b
  | none => none

/-- The function `hex.EncodeToString`. -/
def hexEncode (b : Bytes) : Bytes :=
  let digit (n : Nat) : Nat := if n < 10 then 48 + n else 87 + n
  b.flatMap fun x => [digit (x / 16 % 16), digit (x % 16)]

/-! ## unicode/utf8 -/

/-- Entry of the `first` table of `unicode/utf8` for a non-ASCII leading byte: the
sequence length and the accepted range of the second byte; `none` is the `xx` entry. -/
def utf8First (b : Nat) : Option (Nat × Nat × Nat) :=
  if 0xC2 ≤ b ∧ b ≤ 0xDF then some (2, 0x80, 0xBF)
  else if b = 0xE0 then some (3, 0xA0, 0xBF)
  else if 0xE1 ≤ b ∧ b ≤ 0xEC then some (3, 0x80, 0xBF)
  else if b = 0xED then some (3, 0x80, 0x9F)
  else if 0xEE ≤ b ∧ b ≤ 0xEF then some (3, 0x80, 0xBF)
  else if b = 0xF0 then some (4, 0x90, 0xBF)
  else if 0xF1 ≤ b ∧ b ≤ 0xF3 then some (4, 0x80, 0xBF)
  else if b = 0xF4 then some (4, 0x80, 0x8F)
  else none

/-- Continuation byte test (`locb ≤ c ≤ hicb`). -/
def isCont (c : Nat) : Bool := 0x80 ≤ c && c ≤ 0xBF

/-- The loop of `utf8.ValidString`, with `fuel` bounding the number of iterations (each
iteration consumes at least one byte). -/
def validLoop : Nat → Bytes → Bool
  | _, [] => true
  | 0, _ :: _ => false
  | fuel + 1, si :: rest =>
    if si < 0x80 then validLoop fuel rest
    else
      match utf8First si with
      | none => false
      | some (size, lo, hi) =>
        if rest.length + 1 < size then false
        else
          match rest with
          | [] => false
          | c1 :: r1 =>
            if c1 < lo ∨ hi < c1 then false
            else if size = 2 then validLoop fuel r1
            else
              match r1 with
              | [] => false
              | c2 :: r2 =>
                if !isCont c2 then false
                else if size = 3 then validLoop fuel r2
                else
                  match r2 with
                  | [] => false
                  | c3 :: r3 => if !isCont c3 then false else validLoop fuel r3

/-- The function `utf8.ValidString`. -/
def ValidString (s : Bytes) : Bool := validLoop s.length s

/-! ## net: IP addresses -/

/-- The 12-byte header `v4InV6Prefix` of an IPv4 address in 16-byte form. -/
def v4InV6Prefix : Bytes := [0, 0, 0, 0, 0, 0, 0, 0, 0, 0, 0xff, 0xff]

/-- The loop of `parseIPv4`: `first` says the index is 0, `prevDot` that the previous byte
was a dot, `fields` are the octets completed so far (`pos` is their number), `val` and
`digLen` describe the octet being read. -/
def parseIPv4Loop : Bytes → Bool → Bool → List Nat → Nat → Nat → Option Bytes
  | [], _, _, fields, val, _ => if fields.length < 3 then none else some (fields ++ [val])
  | c :: rest, first, prevDot, fields, val, digLen =>
    if 48 ≤ c ∧ c ≤ 57 then
      if digLen = 1 ∧ val = 0 then none
      else if val * 10 + (c - 48) > 255 then none
      else parseIPv4Loop rest false false fields (val * 10 + (c - 48)) (digLen + 1)
    else if c = 46 then
      if first ∨ rest.isEmpty ∨ prevDot then none
      else if fields.length = 3 then none
      else parseIPv4Loop rest false true (fields ++ [val]) 0 0
    else none

/-- Dotted-decimal parser: the four octets, or `none` on a syntax error. -/
def parseIPv4 (s : Bytes) : Option Bytes := parseIPv4Loop s true false [] 0 0

/-- Value of a hexadecimal digit. -/
def hexVal (c : Nat) : Option Nat :=
  if 48 ≤ c ∧ c ≤ 57 then some (c - 48)
  else if 97 ≤ c ∧ c ≤ 102 then some (c - 97 + 10)
  else if 65 ≤ c ∧ c ≤ 70 then some (c - 65 + 10)
  else none

/-- The inner loop of `parseIPv6` reading one group: the number of digits read, their
value and the rest of the input; `none` when the group has more than four digits. -/
def scanHex : Bytes → Nat → Nat → Option (Nat × Nat × Bytes)
  | [], off, acc => some (off, acc, [])
  | c :: rest, off, acc =>
    match hexVal c with
    | none => some (off, acc, c :: rest)
    | some v =>
      if off > 3 then none
      else if acc * 16 + v > 0xFFFF then none
      else scanHex rest (off + 1) (acc * 16 + v)

/-- The outer loop of `parseIPv6` (`for i < 16`), where `ip` holds the `i` bytes written
so far and `ellipsis` the position of `::`.  Each iteration writes two bytes or leaves
the loop, so eight iterations exhaust it.  The result is the state at loop exit. -/
def parseIPv6Loop : Nat → Bytes → Bytes → Option Nat → Option (Bytes × Option Nat × Bytes)
  | 0, s, ip, ellipsis => some (ip, ellipsis, s)
  | fuel + 1, s, ip, ellipsis =>
    if 16 ≤ ip.length then some (ip, ellipsis, s)
    else
      match scanHex s 0 0 with
      | none => none
      | some (off, acc, rest) =>
        if off = 0 then none
        else if rest.head? = some 46 then
          if ellipsis.isNone ∧ ip.length ≠ 12 then none
          else if ip.length + 4 > 16 then none
          else
            match parseIPv4 s with
            | none => none
            | some f => some (ip ++ f, ellipsis, [])
        else
          match rest with
          | [] => some (ip ++ [acc / 256, acc % 256], ellipsis, [])
          | c :: rest1 =>
            if c ≠ 58 then none
            else
              match rest1 with
              | [] => none
              | d :: rest2 =>
                if d = 58 then
                  if ellipsis.isSome then none
                  else if rest2.isEmpty then
                    some (ip ++ [acc / 256, acc % 256], some (ip.length + 2), [])
                  else
                    parseIPv6Loop fuel rest2 (ip ++ [acc / 256, acc % 256])
                      (some (ip.length + 2))
                else
                  parseIPv6Loop fuel rest1 (ip ++ [acc / 256, acc % 256]) ellipsis

/-- What `parseIPv6` does after its main loop: the whole input must be used, and a short
address is completed by expanding the ellipsis. -/
def finishIPv6 : Bytes × Option Nat × Bytes → Option Bytes
  | (ip, ellipsis, s) =>
    if !s.isEmpty then none
    else if ip.length < 16 then
      match ellipsis with
      | none => none
      | some e => some (ip.take e ++ List.replicate (16 - ip.length) 0 ++ ip.drop e)
    else if ellipsis.isSome then none
    else some ip

/-- Parser of the colon form, for an input without zone. -/
def parseIPv6 (s : Bytes) : Option Bytes :=
  match s with
  | 58 :: 58 :: rest =>
    if rest.isEmpty then some (List.replicate 16 0)
    else (parseIPv6Loop 8 rest [] (some 0)).bind finishIPv6
  | _ => (parseIPv6Loop 8 s [] none).bind finishIPv6

/-- The function `net.ParseIP`: the first of `.`, `:` and `%` in the text selects the
parser; a text with a zone is refused; the result is always in 16-byte form and `none`
stands for the nil address. -/
def ParseIP (s : Bytes) : Option Bytes :=
  match s.find? (fun c => c = 46 ∨ c = 58 ∨ c = 37) with
  | none => none
  | some c =>
    if c = 46 then (parseIPv4 s).map fun f => v4InV6Prefix ++ f
    else if c = 58 then (if 37 ∈ s then none else parseIPv6 s)
    else none

/-- The method `IP.To4`: the 4-byte form of an IPv4 address, `none` (nil) otherwise. -/
def To4 (ip : Bytes) : Option Bytes :=
  if ip.length = 4 then some ip
  else if ip.length = 16 ∧ ip.take 12 = v4InV6Prefix then some (ip.drop 12)
  else none

/-- The method `IP.To16`: the 16-byte form, `none` (nil) for a slice of another length. -/
def To16 (ip : Bytes) : Option Bytes :=
  if ip.length = 4 then some (v4InV6Prefix ++ ip)
  else if ip.length = 16 then some ip
  else none

/-- The helper `ubtoa`: decimal digits of a byte. -/
def ubtoa (v : Nat) : Bytes :=
  if v < 10 then [v + 48]
  else if v < 100 then [v / 10 + 48, v % 10 + 48]
  else [v / 100 + 48, v / 10 % 10 + 48, v % 10 + 48]

/-- The method `IP.String` on a 4-byte address: dotted decimal. -/
def String4 (ip : Bytes) : Bytes :=
  match ip with
  | [a, b, c, d] => ubtoa a ++ [46] ++ ubtoa b ++ [46] ++ ubtoa c ++ [46] ++ ubtoa d
  | _ => []

/-- The type `net.IPNet`: network number and mask. -/
structure IPNet where
  IP : Option Bytes
  Mask : Bytes
deriving DecidableEq, Repr

/-- The function `net.CIDRMask ones bits`, for `bits` 32 or 128 and `ones ≤ bits`. -/
def CIDRMask (ones bits : Nat) : Bytes :=
  (List.range (bits / 8)).map fun i =>
    if 8 * (i + 1) ≤ ones then 0xff
    else if ones ≤ 8 * i then 0
    else 256 - 2 ^ (8 * (i + 1) - ones)

/-- The network `10.0.0.0/8` as `net.ParseCIDR` returns it: 4-byte number and mask. -/
def subnet10 : IPNet := { IP := some [10, 0, 0, 0], Mask := CIDRMask 8 32 }

/-- The method `IPNet.Contains` for a network given by a 4-byte number and mask. -/
def IPNet.Contains (n : IPNet) (ip : Bytes) : Bool :=
  match n.IP with
  | none => false
  | some nn =>
    let x := (To4 ip).getD ip
    if x.length ≠ nn.length then false
    else (List.zip nn (List.zip n.Mask x)).all fun t => t.1 &&& t.2.1 = t.2.2 &&& t.2.1

/-! ## Registry store: the two tables -/

/-- A row of `server_info_table`; every column is `NOT NULL` in the table definition of
`client/initializeDB.go`, apart from the name. -/
structure ServerRow where
  server_id : Nat
  server_name : Bytes
  server_pubip : Bytes
  server_port : Nat
  server_privip : Bytes
  server_pubkey : Bytes
  server_presharedkey : Bytes
deriving DecidableEq, Repr

/-- The table `server_info_table`: its rows and the last value of the `AUTOINCREMENT`
sequence. -/
structure ServerTable where
  rows : List ServerRow
  seq : Nat
deriving DecidableEq, Repr

/-- A row of `user_info_table`. -/
structure UserRow where
  user_id : Nat
  username : Bytes
  display_name : Bytes
  user_pubkey : Bytes
  latest_ip : Bytes
deriving DecidableEq, Repr

/-- The table `user_info_table`: its rows and the last identifier handed out. -/
structure UserTable where
  rows : List UserRow
  seq : Nat
deriving DecidableEq, Repr

/-- Why a statement failed in the store. -/
inductive DbErr where
  | deadline
  | fault
  | constraint
deriving DecidableEq, Repr

/-- A Go `error` value: `errors.New msg`, or `fmt.Errorf` wrapping a store error. -/
inductive GoError where
  | new (msg : String)
  | wrap (msg : String) (cause : DbErr)
deriving DecidableEq, Repr

/-- The six parameters `$1 .. $6` of the `INSERT` of `AddServer`; a nil slice is sent as
`NULL`, written `none`. -/
structure ServerInsert where
  server_name : Bytes
  server_pubip : Option Bytes
  server_port : Nat
  server_privip : Option Bytes
  server_pubkey : Bytes
  server_presharedkey : Bytes
deriving DecidableEq, Repr

/-- The statement `INSERT INTO server_info_table ... RETURNING server_id` under the table
definition of `client/initializeDB.go`: the two addresses are `NOT NULL`, the port lies
in 0..65535, private address and public key are `UNIQUE`, and the identifier is the next
value of the sequence.  The argument `fault` is the timeout or I/O error the store
raises on its own, if any. -/
def insertServer (fault : Option DbErr) (t : ServerTable) (a : ServerInsert) :
    Except DbErr (Nat × ServerTable) :=
  match fault with
  | some e => .error e
  | none =>
    match a.server_pubip, a.server_privip with
    | some pubip, some privip =>
      if 65535 < a.server_port then .error .constraint
      else if t.rows.any (fun r => r.server_privip = privip) then .error .constraint
      else if t.rows.any (fun r => r.server_pubkey = a.server_pubkey) then .error .constraint
      else
        .ok (t.seq + 1,
          { rows := t.rows ++ [{ server_id := t.seq + 1, server_name := a.server_name,
                                 server_pubip := pubip, server_port := a.server_port,
                                 server_privip := privip, server_pubkey := a.server_pubkey,
                                 server_presharedkey := a.server_presharedkey }],
            seq := t.seq + 1 })
    | _, _ => .error .constraint

/-- What a call of `AddServer` returns and does: the two return values, the table
afterwards, and the `INSERT` it issued, if any. -/
structure AddServerResult where
  id : Int
  err : Option GoError
  table : ServerTable
  issued : Option ServerInsert
deriving DecidableEq, Repr

/-- The function `AddServer` of `server/addServer.go`. -/
def AddServer (fault : Option DbErr) (db : ServerTable) (server_name server_pubip : Bytes)
    (server_port : Nat) (server_privip server_pubkey server_presharedkey : Bytes) :
    AddServerResult :=
  let server_name := if server_name.length = 0 then str "default_server_name" else server_name
  match ParseKey server_pubkey with
  | none => ⟨-1, some (.new "invalid public key"), db, none⟩
  | some wgpubkey =>
    match ParseKey server_presharedkey with
    | none => ⟨-2, some (.new "invalid preshared key"), db, none⟩
    | some wgpsk =>
      if server_name.length > 64 then
        ⟨-3, some (.new "invalid servername! it's too long"), db, none⟩
      else
        match ParseIP server_pubip with
        | none => ⟨-4, some (.new "invalid public IP! please check"), db, none⟩
        | some pubIP =>
          match ParseIP server_privip with
          | none => ⟨-5, some (.new "invalid private IP! please check"), db, none⟩
          | some privIP =>
            if !subnet10.Contains privIP then
              ⟨-6, some (.new "invalid private IP: must be within 10.0.0.0/8"), db, none⟩
            else
              let args : ServerInsert :=
                { server_name := server_name, server_pubip := To16 pubIP,
                  server_port := server_port, server_privip := To16 privIP,
                  server_pubkey := wgpubkey, server_presharedkey := wgpsk }
              match insertServer fault db args with
              | .error e =>
                ⟨-7, some (.wrap "error when inserting into Relay Server Table: " e), db,
                  some args⟩
              | .ok (new_server_id, db1) => ⟨new_server_id, none, db1, some args⟩

/-- The four parameters of the `INSERT` of `AddUser`. -/
structure UserInsert where
  username : Bytes
  display_name : Bytes
  user_pubkey : Bytes
  latest_ip : Bytes
deriving DecidableEq, Repr

/-- Modelled from the spec: the definition of `user_info_table` is not part of the
sources; the spec gives it an auto-incrementing integer primary key and no uniqueness
constraint, so the `INSERT` appends a row under the next identifier unless the store
faults. -/
def insertUser (fault : Option DbErr) (t : UserTable) (a : UserInsert) :
    Except DbErr (Nat × UserTable) :=
  match fault with
  | some e => .error e
  | none =>
    .ok (t.seq + 1,
      { rows := t.rows ++ [{ user_id := t.seq + 1, username := a.username,
                             display_name := a.display_name, user_pubkey := a.user_pubkey,
                             latest_ip := a.latest_ip }],
        seq := t.seq + 1 })

/-- What a call of `AddUser` returns and does. -/
structure AddUserResult where
  id : Int
  err : Option GoError
  table : UserTable
  issued : Option UserInsert
deriving DecidableEq, Repr

/-- The function `AddUser` of `server/addUser.go`. -/
def AddUser (fault : Option DbErr) (db : UserTable) (username display_name pubkey latest_ip : Bytes) :
    AddUserResult :=
  match ParseKey pubkey with
  | none => ⟨-1, some (.new "invalid public key"), db, none⟩
  | some wgpubkey =>
    if username.length ≤ 0 ∨ username.length > 64 then
      ⟨-2, some (.new "invalid username! It's empty or too long"), db, none⟩
    else if username.any (fun b => b > 0x7F) then
      ⟨-3, some (.new "invalid username! Special characters are not allowed"), db, none⟩
    else if !ValidString display_name then
      ⟨-4, some (.new "illegal display name! It's not a valid UTF8 string"), db, none⟩
    else if display_name.length ≤ 0 ∨ display_name.length > 128 then
      ⟨-5, some (.new "display name too long! Please choose a shorter one"), db, none⟩
    else
      let args : UserInsert :=
        { username := username, display_name := display_name, user_pubkey := wgpubkey,
          latest_ip := latest_ip }
      match insertUser fault db args with
      | .error e =>
        if e = .deadline then ⟨-6, some (.wrap "db timeout: " e), db, some args⟩
        else ⟨-6, some (.wrap "insert user_info_table: " e), db, some args⟩
      | .ok (new_user_id, db1) => ⟨new_user_id, none, db1, some args⟩

/-! ## Control API: the handler of `/ip/replace` -/

/-- The lifetime of a nonce, `30 * time.Second`, in nanoseconds. -/
def nonceTTL : Nat := 30 * 1000000000

/-- An entry of the nonce store: the nonce and its expiry time. -/
structure nonceEntry where
  val : Bytes
  expiry : Nat
deriving DecidableEq, Repr

/-- The state the handler works on: the process-wide map `globalNonceStore` from user
identifier to nonce entry, and the user table. -/
structure Store where
  globalNonceStore : Nat → Option nonceEntry
  users : List UserRow

/-- The JSON body of a request: `user_id`, `ip_address` and the optional `sig`. -/
structure request where
  UserID : Nat
  IPAddress : Bytes
  SigB64 : Bytes
deriving DecidableEq, Repr

/-- An HTTP request as the handler sees it: the method, and what the JSON decoder makes
of the body (`none` when it reports an error). -/
structure HttpRequest where
  Method : Bytes
  Body : Option request
deriving DecidableEq, Repr

/-- What the surroundings contribute to one request: the clock reading, the 32 bytes of
`rand.Read` (`none` when it fails), and whether each of the three statements fails in
the store. -/
structure Env where
  now : Nat
  rand : Option Bytes
  pubKeyQueryFails : Bool
  holderQueryFails : Bool
  updateFails : Bool
deriving DecidableEq, Repr

/-- The answer to a request: `http.Error w msg status`, the JSON of a challenge (the
nonce in hexadecimal), the JSON of a result, or no answer at all because the handler
panicked. -/
inductive Response where
  | error (msg : String) (status : Nat)
  | challenge (Nonce : Bytes)
  | result (Free Written : Bool)
  | aborted
deriving DecidableEq, Repr

/-- Status code of an answer. -/
def Response.status : Response → Option Nat
  | .error _ status => some status
  | .challenge _ => some 200
  | .result _ _ => some 200
  | .aborted => none

/-- JSON spelling of a boolean. -/
def jsonBool (b : Bool) : Bytes := if b then str "true" else str "false"

/-- Body of an answer: `http.Error` writes the message and a line feed, the JSON encoder
the object and a line feed. -/
def Response.body : Response → Bytes
  | .error msg _ => str msg ++ [10]
  | .challenge n => str "\x7b\"nonce\":\"" ++ n ++ str "\"\x7d\n"
  | .result f w =>
    str "\x7b\"free\":" ++ jsonBool f ++ str ",\"written\":" ++ jsonBool w ++ str "\x7d\n"
  | .aborted => []

/-- The accesses to the nonce store and to the registry, and the signature check, in
the order the handler performs them. -/
inductive Op where
  | nonceStore (uid : Nat)
  | nonceLoad (uid : Nat)
  | nonceDelete (uid : Nat)
  | queryPubKey (uid : Nat)
  | verify
  | queryHolder (ip : Bytes)
  | update (ip : Bytes) (uid : Nat)
deriving DecidableEq, Repr

/-- The query `SELECT user_pubkey FROM user_info_table WHERE user_id=$1` read with
`QueryRow(..).Scan`: the key of the first row found, `none` for any error (no row, or
a failure of the store). -/
def queryPubKey (fails : Bool) (users : List UserRow) (uid : Nat) : Option Bytes :=
  if fails then none
  else (users.find? fun r => r.user_id = uid).map fun r => r.user_pubkey

/-- The identifier in the first row whose `latest_ip` is the given text, if any. -/
def firstHolder (users : List UserRow) (ip : Bytes) : Option Nat :=
  (users.find? fun r => r.latest_ip = ip).map fun r => r.user_id

/-- The table after `SET latest_ip = ip` in every row `WHERE user_id = uid`. -/
def setLatest (users : List UserRow) (ip : Bytes) (uid : Nat) : List UserRow :=
  users.map fun r => if r.user_id = uid then { r with latest_ip := ip } else r

/-- The number of rows `WHERE user_id = uid`: what `RowsAffected` reports for the
`UPDATE`, the store counting every row it matches, also one whose value stays the same. -/
def rowsOf (users : List UserRow) (uid : Nat) : Nat :=
  (users.filter fun r => r.user_id = uid).length

/-- The query `SELECT user_id FROM user_info_table WHERE latest_ip = $1`: the first row
found (`some id`), `sql.ErrNoRows` (`none`), or another error. -/
def queryHolder (fails : Bool) (users : List UserRow) (ip : Bytes) : Except Unit (Option Nat) :=
  if fails then .error ()
  else .ok (firstHolder users ip)

/-- The statement `UPDATE user_info_table SET latest_ip = $1 WHERE user_id = $2`: the
number of rows affected and the table afterwards, `none` when the statement fails. -/
def execUpdate (fails : Bool) (users : List UserRow) (ip : Bytes) (uid : Nat) :
    Option (Nat × List UserRow) :=
  if fails then none
  else
    some (rowsOf users uid, setLatest users ip uid)

/-- The map operation `delete(m, k)`. -/
def mapDelete (m : Nat → Option nonceEntry) (k : Nat) : Nat → Option nonceEntry :=
  fun j => if j = k then none else m j

/-- The map assignment `m[k] = v`. -/
def mapSet (m : Nat → Option nonceEntry) (k : Nat) (v : nonceEntry) : Nat → Option nonceEntry :=
  fun j => if j = k then some v else m j

/-- The section `check IP and update` of the handler, reached once the signature is
verified: the answer, the state afterwards and the accesses made. -/
def checkIPAndUpdate (env : Env) (st : Store) (req : request) : Response × Store × List Op :=
  match queryHolder env.holderQueryFails st.users req.IPAddress with
  | .error _ => (.error "db error" 500, st, [.queryHolder req.IPAddress])
  | .ok occupiedBy =>
    let free := occupiedBy.isNone || occupiedBy == some req.UserID
    if free then
      match execUpdate env.updateFails st.users req.IPAddress req.UserID with
      | none =>
        (.error "update fail" 500, st, [.queryHolder req.IPAddress, .update req.IPAddress req.UserID])
      | some (n, users1) =>
        (.result free (n == 1), { st with users := users1 },
          [.queryHolder req.IPAddress, .update req.IPAddress req.UserID])
    else (.result free false, st, [.queryHolder req.IPAddress])

/-- The section `Phase 2: verify signature` of the handler after the nonce `entry` has
been taken out of the store.  The signature check `ed25519.Verify` is the parameter
`verify` (public key, message, signature); it panics when the public key is not 32
bytes long. -/
def verifySignature (verify : Bytes → Bytes → Bytes → Bool) (env : Env) (st : Store)
    (req : request) (entry : nonceEntry) : Response × Store × List Op :=
  match base64Decode req.SigB64 with
  | none => (.error "bad sig encoding" 400, st, [])
  | some sig =>
    match queryPubKey env.pubKeyQueryFails st.users req.UserID with
    | none => (.error "user not found" 403, st, [.queryPubKey req.UserID])
    | some pubKey =>
      if pubKey.length ≠ 32 then (.aborted, st, [.queryPubKey req.UserID, .verify])
      else if !verify pubKey entry.val sig then
        (.error "signature fail" 403, st, [.queryPubKey req.UserID, .verify])
      else
        let out := checkIPAndUpdate env st req
        (out.1, out.2.1, [.queryPubKey req.UserID, .verify] ++ out.2.2)

/-- The handler returned by `httpHandleReplaceIP` in `server/controlUtils.go`, run on one
request: the answer, the state afterwards and the accesses made. -/
def httpHandleReplaceIP (verify : Bytes → Bytes → Bytes → Bool) (env : Env) (st : Store)
    (r : HttpRequest) : Response × Store × List Op :=
  if r.Method ≠ str "POST" then (.error "POST only" 405, st, [])
  else
    match r.Body with
    | none => (.error "bad json" 400, st, [])
    | some req =>
      if (ParseIP req.IPAddress).isNone then (.error "invalid ip" 400, st, [])
      else if req.SigB64 = [] then
        match env.rand with
        | none => (.error "rand" 500, st, [])
        | some nonce =>
          (.challenge (hexEncode nonce),
            { st with globalNonceStore :=
                mapSet st.globalNonceStore req.UserID ⟨nonce, env.now + nonceTTL⟩ },
            [.nonceStore req.UserID])
      else
        match st.globalNonceStore req.UserID with
        | none => (.error "no nonce" 403, st, [.nonceLoad req.UserID])
        | some entry =>
          if env.now > entry.expiry then (.error "no nonce" 403, st, [.nonceLoad req.UserID])
          else
            let out := verifySignature verify env
              { st with globalNonceStore := mapDelete st.globalNonceStore req.UserID } req entry
            (out.1, out.2.1, [.nonceLoad req.UserID, .nonceDelete req.UserID] ++ out.2.2)

/-- The body of the purging goroutine at one wake-up: every expired entry is deleted. -/
def sweep (now : Nat) (st : Store) : Store :=
  { st with globalNonceStore := fun uid =>
      match st.globalNonceStore uid with
      | none => none
      | some entry => if now > entry.expiry then none else some entry }

/-- What happens to the state, one thing after another: a request is handled, or the
purging goroutine wakes up. -/
inductive Event where
  | request (env : Env) (r : HttpRequest)
  | sweep (now : Nat)

/-- The state after one event. -/
def step (verify : Bytes → Bytes → Bytes → Bool) (st : Store) : Event → Store
  | .request env r => (httpHandleReplaceIP verify env st r).2.1
  | .sweep now => sweep now st

/-- The state after a sequence of events. -/
def run (verify : Bytes → Bytes → Bytes → Bool) (st : Store) (evs : List Event) : Store :=
  evs.foldl (step verify) st

/-- A request that reaches phase 2 for user `uid`: a `POST` whose body decodes, whose
address is an IP literal and which carries a signature. -/
def isPhase2 (uid : Nat) (r : HttpRequest) : Prop :=
  r.Method = str "POST" ∧
    ∃ req, r.Body = some req ∧ req.UserID = uid ∧ (ParseIP req.IPAddress).isSome ∧
      req.SigB64 ≠ []

/-- An event that issues a challenge for user `uid`: a `POST` without signature for
that user that gets through phase 1. -/
def issuesChallenge (uid : Nat) : Event → Prop
  | .request env r =>
    r.Method = str "POST" ∧
      ∃ req, r.Body = some req ∧ req.UserID = uid ∧ (ParseIP req.IPAddress).isSome ∧
        req.SigB64 = [] ∧ env.rand.isSome
  | .sweep _ => False

/-- The invariant the claim protocol keeps, on the stored texts: two rows with the same
non-empty `latest_ip` text belong to the same user.  The texts are compared byte for
byte, as the handler compares them, so two spellings of one IP address are two texts;
`uniqueAddressHolders` is the reading on addresses. -/
def uniqueTextHolders (users : List UserRow) : Prop :=
  ∀ r ∈ users, ∀ r1 ∈ users, r.latest_ip = r1.latest_ip → r.latest_ip ≠ [] →
    r.user_id = r1.user_id

/-! ## Peer synchronizer -/

/-- The type `wgtypes.PeerConfig`, with the fields `UpdateConnection` sets; an unset
pointer field is `none`.  The endpoint is a `net.UDPAddr`: address and port. -/
structure PeerConfig where
  PublicKey : Bytes
  PresharedKey : Option Bytes
  Endpoint : Option (Option Bytes × Nat)
  AllowedIPs : List IPNet
  PersistentKeepaliveInterval : Option Nat
  ReplaceAllowedIPs : Bool
deriving DecidableEq, Repr

/-- The fields of `wgtypes.Device` that `UpdateConnection` reads. -/
structure Device where
  PrivateKey : Bytes
  ListenPort : Nat
  FirewallMark : Nat
deriving DecidableEq, Repr

/-- The type `wgtypes.Config`. -/
structure Config where
  PrivateKey : Option Bytes
  ListenPort : Option Nat
  FirewallMark : Option Nat
  ReplacePeers : Bool
  Peers : List PeerConfig
deriving DecidableEq, Repr

/-- An element of `wg_iface.Addrs()`: a `*net.IPNet`, or an address of another type. -/
inductive Addr where
  | ipnet (IP : Bytes) (Mask : Bytes)
  | other
deriving DecidableEq, Repr

/-- How a query goes in the store: it fails when issued, or its rows are read, all of
them (`readable = none`) or only the first `n` because reading then fails
(`readable = some n`, `rows.Next` returns false). -/
structure QueryRun where
  issueFails : Bool
  readable : Option Nat
deriving DecidableEq, Repr

/-- What the surroundings contribute to one synchronization pass: whether
`wgctrl.New` succeeds, the device `wg0` (`none` on error), the interface `wg0` and its
addresses (`none` on error at either call), the course of the two queries, and whether
`ConfigureDevice` succeeds. -/
structure SyncEnv where
  wgNewOk : Bool
  device : Option Device
  iface : Option (Option (List Addr))
  serverQuery : QueryRun
  userQuery : QueryRun
  configureOk : Bool
deriving DecidableEq, Repr

/-- The errors `UpdateConnection` returns. -/
inductive SyncErr where
  | wgNew
  | device
  | interfaceByName
  | addrs
  | noAddress
  | serverQuery
  | userQuery
  | configure
deriving DecidableEq, Repr

/-- What a pass returns and does: the error returned (`none` for nil) and the
configuration handed to `ConfigureDevice`, if it was called. -/
structure SyncResult where
  err : Option SyncErr
  configured : Option Config
deriving DecidableEq, Repr

/-- The function `strings.LastIndex s c` for a one-byte separator. -/
def LastIndex : Bytes → Nat → Int
  | [], _ => -1
  | x :: xs, c =>
    if LastIndex xs c < 0 then (if x = c then 0 else -1) else LastIndex xs c + 1

/-- Matching of a text against what is left of a `LIKE` pattern after a `%`: the
rest of the pattern matches some suffix of the text. -/
def likeSuffix (f : Bytes → Bool) : Bytes → Bool
  | [] => f []
  | c :: t => f (c :: t) || likeSuffix f t

/-- The SQL operator `text LIKE pattern`: `%` stands for any sequence, `_` for any one
character, a backslash takes the next character literally. -/
def like : Bytes → Bytes → Bool
  | [], t => t.isEmpty
  | 37 :: p, t => likeSuffix (like p) t
  | 95 :: p, t =>
    match t with
    | [] => false
    | _ :: t1 => like p t1
  | 92 :: c :: p, t =>
    match t with
    | [] => false
    | d :: t1 => c = d && like p t1
  | c :: p, t =>
    match t with
    | [] => false
    | d :: t1 => c = d && like p t1

/-- The rows a query delivers to the loop `for rows.Next()`. -/
def delivered {α : Type} (q : QueryRun) (rows : List α) : List α :=
  match q.readable with
  | none => rows
  | some n => rows.take n

/-- The query `peer_server_SQL`, `WHERE server_privip <> $1`: the parameter is the Go
string `wg_privip`, which the driver sends as text and the store reads as the byte
string of that text, to be compared with the stored bytes. -/
def peer_server_SQL (servers : List ServerRow) (wg_privip : Bytes) : List ServerRow :=
  servers.filter fun r => r.server_privip ≠ wg_privip

/-- The query `peer_user_SQL`, `WHERE latest_ip LIKE $1`. -/
def peer_user_SQL (users : List UserRow) (pattern : Bytes) : List UserRow :=
  users.filter fun r => like pattern r.latest_ip

/-- The keepalive interval, `25 * time.Second`, in nanoseconds. -/
def keepalive_interval : Nat := 25 * 1000000000

/-- The body of the first loop of `UpdateConnection` for one row: the peer appended, or
`none` when the row is skipped.  The scanned slices of a row are never nil. -/
def serverPeer (row : ServerRow) : Option PeerConfig :=
  match NewKey row.server_pubkey with
  | none => none
  | some pubkey =>
    match NewKey row.server_presharedkey with
    | none => none
    | some psk =>
      let pubIP : Option Bytes := some row.server_pubip
      let privIP : Option Bytes := some row.server_privip
      if pubIP.isNone ∨ privIP.isNone then none
      else
        some { PublicKey := pubkey, PresharedKey := some psk,
               Endpoint := some (pubIP, row.server_port),
               AllowedIPs := [{ IP := privIP, Mask := CIDRMask 32 32 }],
               PersistentKeepaliveInterval := some keepalive_interval,
               ReplaceAllowedIPs := true }

/-- The body of the second loop of `UpdateConnection` for one row. -/
def userPeer (row : UserRow) : Option PeerConfig :=
  match NewKey row.user_pubkey with
  | none => none
  | some pubkey =>
    some { PublicKey := pubkey, PresharedKey := none, Endpoint := none,
           AllowedIPs := [{ IP := ParseIP row.latest_ip, Mask := CIDRMask 32 32 }],
           PersistentKeepaliveInterval := some keepalive_interval,
           ReplaceAllowedIPs := true }

/-- The loop over `addrs` of `UpdateConnection`: the text of the last IPv4 address,
starting from `wg_privip`. -/
def localAddress (wg_privip : Bytes) : List Addr → Bytes
  | [] => wg_privip
  | .ipnet ip _ :: rest =>
    match To4 ip with
    | some v4 => localAddress (String4 v4) rest
    | none => localAddress wg_privip rest
  | .other :: rest => localAddress wg_privip rest

/-- The function `UpdateConnection` of `server/updateConnection.go`, on the two tables
of the registry. -/
def UpdateConnection (env : SyncEnv) (servers : List ServerRow) (users : List UserRow) :
    SyncResult :=
  if !env.wgNewOk then ⟨some .wgNew, none⟩
  else
    match env.device with
    | none => ⟨some .device, none⟩
    | some wg_dev =>
      match env.iface with
      | none => ⟨some .interfaceByName, none⟩
      | some none => ⟨some .addrs, none⟩
      | some (some addrs) =>
        let wg_privip := localAddress [] addrs
        if wg_privip.length = 0 then ⟨some .noAddress, none⟩
        else if env.serverQuery.issueFails then ⟨some .serverQuery, none⟩
        else
          let new_peers :=
            (delivered env.serverQuery (peer_server_SQL servers wg_privip)).filterMap serverPeer
          let pattern := wg_privip.take (LastIndex wg_privip 46 + 1).toNat ++ [37]
          if env.userQuery.issueFails then ⟨some .userQuery, none⟩
          else
            let new_peers :=
              new_peers ++ (delivered env.userQuery (peer_user_SQL users pattern)).filterMap userPeer
            let new_conf : Config :=
              { PrivateKey := some wg_dev.PrivateKey, ListenPort := some wg_dev.ListenPort,
                FirewallMark := some wg_dev.FirewallMark, ReplacePeers := true,
                Peers := new_peers }
            if env.configureOk then ⟨none, some new_conf⟩
            else ⟨some .configure, some new_conf⟩


/-! ## Example data -/

/-- Base64 text of the key made of 32 bytes `0`. -/
def exKeyA : Bytes := str "AAAAAAAAAAAAAAAAAAAAAAAAAAAAAAAAAAAAAAAAAAA="

/-- Base64 text of the key made of 32 bytes `1`. -/
def exKeyB : Bytes := str "AQEBAQEBAQEBAQEBAQEBAQEBAQEBAQEBAQEBAQEBAQE="

/-- Base64 text of the key made of 32 bytes `2`. -/
def exKeyC : Bytes := str "AgICAgICAgICAgICAgICAgICAgICAgICAgICAgICAgI="

/-- A server table filled through `AddServer`: the local relay `10.0.0.1` and one other
relay `10.0.1.1`. -/
def exServers : ServerTable :=
  (AddServer none
    (AddServer none ⟨[], 0⟩ (str "relay-a") (str "203.0.113.1") 51820 (str "10.0.0.1")
      exKeyA exKeyA).table
    (str "relay-b") (str "203.0.113.2") 51820 (str "10.0.1.1") exKeyB exKeyB).table

/-- A user table filled through `AddUser`: one user in the subnet of the local relay. -/
def exUserTable : UserTable :=
  (AddUser none ⟨[], 0⟩ (str "alice") (str "Alice") exKeyC (str "10.0.0.5")).table

/-- A pass on the relay whose interface `wg0` has the address `10.0.0.1/32`, in which
nothing fails. -/
def exSyncEnv : SyncEnv :=
  { wgNewOk := true, device := some ⟨List.replicate 32 7, 51820, 0⟩,
    iface := some (some [.ipnet [10, 0, 0, 1] [255, 255, 255, 255]]),
    serverQuery := ⟨false, none⟩, userQuery := ⟨false, none⟩, configureOk := true }

/-- A text that decodes, as base64, to exactly 32 bytes. -/
def decodesToKey (s : Bytes) : Prop := ∃ b, base64Decode s = some b ∧ b.length = 32

/-- A stand-in for the signature check in the examples: a signature is accepted when it
repeats the message. -/
def exVerify : Bytes → Bytes → Bytes → Bool := fun _ msg sig => sig == msg

/-- A state with two registered users, `1` and `2`, neither holding an address, and a
nonce of 32 bytes `0` expiring at time 1000 for the users `1` and `9`. -/
def exStore : Store :=
  { globalNonceStore := fun uid =>
      if uid = 1 ∨ uid = 9 then some ⟨List.replicate 32 0, 1000⟩ else none,
    users := [⟨1, str "alice", str "Alice", List.replicate 32 2, []⟩,
      ⟨2, str "bob", str "Bob", List.replicate 32 3, []⟩] }

/-- A `POST` request with the given body. -/
def exPost (uid : Nat) (ip sig : Bytes) : HttpRequest :=
  { Method := str "POST", Body := some ⟨uid, ip, sig⟩ }

/-- Surroundings in which nothing fails: the clock reading and the random bytes. -/
def exEnv (now : Nat) (rand : Bytes) : Env :=
  { now := now, rand := some rand, pubKeyQueryFails := false, holderQueryFails := false,
    updateFails := false }

/-- The `LIKE` pattern of the user query of `UpdateConnection`: the text of the local
address up to and including its last dot, followed by `%`. -/
def userPattern (wg_privip : Bytes) : Bytes :=
  wg_privip.take (LastIndex wg_privip 46 + 1).toNat ++ [37]

/-- The `/24` of an IPv4 address given by its four octets. -/
def slash24 (v4 : Bytes) : IPNet := { IP := some v4, Mask := CIDRMask 24 32 }

/-- Dotted-decimal text of a list of octets. -/
def dotted : List Nat → Bytes
  | [] => []
  | [x] => ubtoa x
  | x :: xs => ubtoa x ++ 46 :: dotted xs

/-- The text of the octets read so far, each followed by a dot. -/
def dotsAfter (fields : List Nat) : Bytes := fields.flatMap fun f => ubtoa f ++ [46]

/-- A user whose latest address is in the subnet of the relay `10.0.0.1`, written in the
form `::ffff:10.0.0.5`. -/
def exMappedUser : UserRow :=
  { user_id := 3, username := str "carol", display_name := str "Carol",
    user_pubkey := List.replicate 32 4, latest_ip := str "::ffff:10.0.0.5" }

/-- The peer entry of a relay row as `UpdateConnection` builds it. -/
def relayEntry (row : ServerRow) : PeerConfig :=
  { PublicKey := row.server_pubkey, PresharedKey := some row.server_presharedkey,
    Endpoint := some (some row.server_pubip, row.server_port),
    AllowedIPs := [{ IP := some row.server_privip, Mask := [255, 255, 255, 255] }],
    PersistentKeepaliveInterval := some (25 * 1000000000), ReplaceAllowedIPs := true }

/-- The peer entry of a user row as `UpdateConnection` builds it. -/
def userEntry (row : UserRow) : PeerConfig :=
  { PublicKey := row.user_pubkey, PresharedKey := none, Endpoint := none,
    AllowedIPs := [{ IP := ParseIP row.latest_ip, Mask := [255, 255, 255, 255] }],
    PersistentKeepaliveInterval := some (25 * 1000000000), ReplaceAllowedIPs := true }

/-- A well-formed relay row whose private address is the IPv6 address `fd00::1`. -/
def exRelayV6 : ServerRow :=
  { server_id := 5, server_name := str "relay-v6",
    server_pubip := v4InV6Prefix ++ [203, 0, 113, 5], server_port := 51820,
    server_privip := [0xfd, 0, 0, 0, 0, 0, 0, 0, 0, 0, 0, 0, 0, 0, 0, 1],
    server_pubkey := List.replicate 32 5, server_presharedkey := List.replicate 32 6 }

/-- A relay row with 32-byte keys whose private address column holds 5 bytes, which is
neither a 4-byte nor a 16-byte address. -/
def exRelayBadIP : ServerRow :=
  { server_id := 6, server_name := str "relay-x",
    server_pubip := v4InV6Prefix ++ [203, 0, 113, 6], server_port := 51820,
    server_privip := [10, 0, 1, 1, 7],
    server_pubkey := List.replicate 32 8, server_presharedkey := List.replicate 32 9 }

/-- A user row with a 32-byte key whose latest address `10.0.0.999` is not an IP
literal: the row that `AddUser` stores for that latest address. -/
def exUserBadIP : UserRow :=
  { user_id := 4, username := str "dave", display_name := str "Dave",
    user_pubkey := List.replicate 32 1, latest_ip := str "10.0.0.999" }

/-- The pass of `exSyncEnv` in which reading the rows of the relay query fails before
the first row (`rows.Next` returns false at once, `rows.Err` holds the error). -/
def exSyncEnvReadFails : SyncEnv := { exSyncEnv with serverQuery := ⟨false, some 0⟩ }

/-! ## Tunnel adapter: address assignment -/

/-- A call into `netlink`, with the arguments that matter here. -/
inductive LinkOp where
  | linkByName
  | addrAdd (ip_net : IPNet)
  | linkSetUp
  | linkSetMTU (MTU : Int)
  | routeAdd
deriving DecidableEq, Repr

/-- How `netlink.RouteAdd` ends: without error, with `EEXIST`, or with another error. -/
inductive RouteOutcome where
  | ok
  | eexist
  | failed
deriving DecidableEq, Repr

/-- What the surroundings contribute to the configuration of the link: whether each
`netlink` call succeeds. -/
structure LinkEnv where
  linkByNameOk : Bool
  addrAddOk : Bool
  linkSetUpOk : Bool
  linkSetMTUOk : Bool
  routeAdd : RouteOutcome
deriving DecidableEq, Repr

/-- The errors of the interface set-up: one made with `errors.New`, the error of a
`netlink` call, or a run-time panic. -/
inductive SetupErr where
  | new (msg : String)
  | netlink (op : LinkOp)
  | runtimePanic
deriving DecidableEq, Repr

/-- What a set-up function returns and does: the error (`none` for nil) and the `netlink`
calls made, in order. -/
structure SetupResult where
  err : Option SetupErr
  ops : List LinkOp
deriving DecidableEq, Repr

/-- The calls from `netlink.LinkByName` to `netlink.RouteAdd`, common to the set-up of
the server and of the client: each error is returned at once, except `EEXIST` from
`RouteAdd`. -/
def configureLink (env : LinkEnv) (ip_net : IPNet) (MTU : Int) : SetupResult :=
  if !env.linkByNameOk then ⟨some (.netlink .linkByName), [.linkByName]⟩
  else if !env.addrAddOk then ⟨some (.netlink (.addrAdd ip_net)), [.linkByName, .addrAdd ip_net]⟩
  else if !env.linkSetUpOk then
    ⟨some (.netlink .linkSetUp), [.linkByName, .addrAdd ip_net, .linkSetUp]⟩
  else if !env.linkSetMTUOk then
    ⟨some (.netlink (.linkSetMTU MTU)),
      [.linkByName, .addrAdd ip_net, .linkSetUp, .linkSetMTU MTU]⟩
  else
    match env.routeAdd with
    | .failed =>
      ⟨some (.netlink .routeAdd),
        [.linkByName, .addrAdd ip_net, .linkSetUp, .linkSetMTU MTU, .routeAdd]⟩
    | _ => ⟨none, [.linkByName, .addrAdd ip_net, .linkSetUp, .linkSetMTU MTU, .routeAdd]⟩

/-- The function `setupWG0Linux` of `server/initializeInterface.go`.  Indexing the nil
slice that `To16` returns for a slice of another length panics. -/
def setupWG0Linux (env : LinkEnv) (server_privip : Bytes) (MTU : Int) : SetupResult :=
  match ParseIP server_privip with
  | none => ⟨some (.new "the given IP address is not valid"), []⟩
  | some privip =>
    let ip_net : Except SetupErr IPNet :=
      match To4 privip with
      | some v4 =>
        if v4.getD 3 0 ≠ 1 then .error (.new "IPv4 server_privip must end with .1")
        else .ok { IP := some v4, Mask := CIDRMask 32 32 }
      | none =>
        match To16 privip with
        | none => .error .runtimePanic
        | some ip16 =>
          if ip16.getD 14 0 * 256 + ip16.getD 15 0 ≠ 1 then
            .error (.new "IPv6 server_privip must end with …:1")
          else .ok { IP := some ip16, Mask := CIDRMask 128 128 }
    match ip_net with
    | .error e => ⟨some e, []⟩
    | .ok ip_net =>
      let MTU := if MTU = 0 then 1500 else MTU
      if MTU > 1700 ∨ MTU < 800 then
        ⟨some (.new "the MTU is either too large or too small"), []⟩
      else configureLink env ip_net MTU

/-- An address in 16-byte form that ends in the host identifier 1: the last octet of an
IPv4 address, the last 16 bits of an IPv6 address. -/
def endsInOne (ip : Bytes) : Prop :=
  (ip.take 12 = v4InV6Prefix ∧ ip.getD 15 0 = 1) ∨
    (ip.take 12 ≠ v4InV6Prefix ∧ ip.getD 14 0 * 256 + ip.getD 15 0 = 1)

/-! ## Control API: the handler of `/relay-table` -/

/-- The struct `RelayRow` of `server/controlUtils.go`. -/
structure RelayRow where
  ServerID : Nat
  ServerName : Bytes
  PubIP : Bytes
  Port : Nat
  PrivIP : Bytes
  PubKey : Bytes
deriving DecidableEq, Repr

/-- The value of a field in the JSON of a `RelayRow`: a number, a string, or a byte slice,
which `encoding/json` writes as a base64 string. -/
inductive JsonField where
  | number (n : Nat)
  | string (s : Bytes)
  | bytes (b : Bytes)
deriving DecidableEq, Repr

/-- What `json.NewEncoder(w).Encode(list)` writes for a `[]RelayRow`: `null` for the nil
slice, otherwise an array of objects, each a list of named fields. -/
inductive JsonDoc where
  | null
  | array (items : List (List (String × JsonField)))
deriving DecidableEq, Repr

/-- The JSON object of a `RelayRow`, by its struct tags: `name` has `omitempty`. -/
def encodeRelayRow (row : RelayRow) : List (String × JsonField) :=
  [("id", .number row.ServerID)] ++
    (if row.ServerName.length = 0 then [] else [("name", .string row.ServerName)]) ++
    [("pub_ip", .bytes row.PubIP), ("port", .number row.Port), ("priv_ip", .bytes row.PrivIP),
      ("pub_key", .bytes row.PubKey)]

/-- The JSON of the slice `list`; `none` is the nil slice. -/
def encodeRelayList : Option (List RelayRow) → JsonDoc
  | none => .null
  | some l => .array (l.map encodeRelayRow)

/-- The answer of the handler of `/relay-table`. -/
inductive RelayResponse where
  | error (msg : String) (status : Nat)
  | json (doc : JsonDoc)
deriving DecidableEq, Repr

/-- The loop `for rows.Next()` of the handler: `list` starts as the nil slice and every
row scanned is appended to it. -/
def scanRelayRows (list : Option (List RelayRow)) : List ServerRow → Option (List RelayRow)
  | [] => list
  | r :: rest =>
    scanRelayRows
      (some (list.getD [] ++
        [{ ServerID := r.server_id, ServerName := r.server_name, PubIP := r.server_pubip,
           Port := r.server_port, PrivIP := r.server_privip, PubKey := r.server_pubkey }]))
      rest

/-- The handler returned by `httpHandleRelayTable`, run on a request with the given
method: the answer, and whether the registry was queried.  Here `rows.Err` is consulted
after the loop.  The columns of a row are never `NULL` in this table model, so a row
always scans and the answer `scan error` does not arise. -/
def httpHandleRelayTable (env : QueryRun) (servers : List ServerRow) (Method : Bytes) :
    RelayResponse × Bool :=
  if Method ≠ str "GET" then (.error "method not allowed" 405, false)
  else if env.issueFails then (.error "db query failed" 500, true)
  else
    let list := scanRelayRows none (delivered env servers)
    if env.readable.isSome then (.error "rows error" 500, true)
    else (.json (encodeRelayList list), true)

/-- The arguments of one call of `AddUser`, with the fault of the store during it. -/
structure AddUserCall where
  fault : Option DbErr
  username : Bytes
  display_name : Bytes
  pubkey : Bytes
  latest_ip : Bytes
deriving DecidableEq, Repr

/-- The user table after a sequence of calls of `AddUser`. -/
def addUsers (db : UserTable) : List AddUserCall → UserTable
  | [] => db
  | c :: rest =>
    addUsers (AddUser c.fault db c.username c.display_name c.pubkey c.latest_ip).table rest

/-- Every stored public key has 32 bytes. -/
def keys32 (users : List UserRow) : Prop := ∀ row ∈ users, row.user_pubkey.length = 32

/-! ## Client: interface initialization -/

/-- What the surroundings contribute to the initialization of the client's interface:
the key of `wgtypes.GeneratePrivateKey` (`none` on error), whether `tun.CreateTUN` and
`IpcSet` succeed, and the course of the `netlink` calls. -/
structure ClientEnv where
  generatedKey : Option Bytes
  createTUNOk : Bool
  ipcSetOk : Bool
  link : LinkEnv
deriving DecidableEq, Repr

/-- The errors of the initialization of the client's interface. -/
inductive InitErr where
  | parseKey
  | generateKey
  | createTUN
  | ipcSet
  | setup (e : SetupErr)
deriving DecidableEq, Repr

/-- What `createWG0Client` returns and does: whether a device is returned, the error
(`none` for nil), and the text handed to `IpcSet`, if it got that far. -/
structure CreateResult where
  device : Bool
  err : Option InitErr
  cfg : Option Bytes
deriving DecidableEq, Repr

/-- The function `createWG0Client` of `client/initializeInterface.go`. -/
def createWG0Client (env : ClientEnv) (wg_privkey : Bytes) : CreateResult :=
  let key : Except InitErr Bytes :=
    if wg_privkey.length ≠ 0 then
      match ParseKey wg_privkey with
      | none => .error .parseKey
      | some k => .ok k
    else
      match env.generatedKey with
      | none => .error .generateKey
      | some k => .ok k
  match key with
  | .error e => ⟨false, some e, none⟩
  | .ok key =>
    if !env.createTUNOk then ⟨false, some .createTUN, none⟩
    else
      let cfg := str "private_key=" ++ hexEncode key ++ [10]
      if env.ipcSetOk then ⟨true, none, some cfg⟩ else ⟨true, some .ipcSet, some cfg⟩

/-- The function `setupWG0LinuxClient` of `client/initializeInterface.go`. -/
def setupWG0LinuxClient (env : LinkEnv) (clientIP : Bytes) (MTU : Int) : SetupResult :=
  match ParseIP clientIP with
  | none => ⟨some (.new "invalid client IP"), []⟩
  | some ip =>
    let ipNet : IPNet :=
      match To4 ip with
      | some v4 => { IP := some v4, Mask := CIDRMask 32 32 }
      | none => { IP := To16 ip, Mask := CIDRMask 128 128 }
    let MTU := if MTU = 0 then 1500 else MTU
    if MTU < 800 ∨ MTU > 1700 then ⟨some (.new "MTU out of reasonable range"), []⟩
    else configureLink env ipNet MTU

/-- What the client's `InitializeInterface` returns and does: whether a device is
returned, the error, and the `netlink` calls made. -/
structure InitResult where
  device : Bool
  err : Option InitErr
  ops : List LinkOp
deriving DecidableEq, Repr

/-- The function `InitializeInterface` of `client/initializeInterface.go`. -/
def client.InitializeInterface (env : ClientEnv) (clientIP wg_privkey : Bytes) (MTU : Int) :
    InitResult :=
  match (createWG0Client env wg_privkey).err with
  | some err => ⟨false, some err, []⟩
  | none =>
    match (setupWG0LinuxClient env.link clientIP MTU).err with
    | some err => ⟨false, some (.setup err), (setupWG0LinuxClient env.link clientIP MTU).ops⟩
    | none => ⟨true, none, (setupWG0LinuxClient env.link clientIP MTU).ops⟩

/-- The call of the client mode in `main` of `cmd/gdimd/main.go`: the value of
`GDIM_WG_PRIVIP` is passed as the client address and as the private key. -/
def mainClientMode (env : ClientEnv) (wg_privip : Bytes) (wg_MTU : Int) : InitResult :=
  client.InitializeInterface env wg_privip wg_privip wg_MTU

/-- Two latest-address texts that stand for the same address: the same text, or two IP
literals that parse to the same address. -/
def sameAddress (a b : Bytes) : Prop :=
  a = b ∨ ((ParseIP a).isSome = true ∧ ParseIP a = ParseIP b)

/-- The invariant of the claim protocol read on addresses: two rows whose non-empty
latest addresses are the same address belong to the same user. -/
def uniqueAddressHolders (users : List UserRow) : Prop :=
  ∀ r ∈ users, ∀ r1 ∈ users, r.latest_ip ≠ [] → sameAddress r.latest_ip r1.latest_ip →
    r.user_id = r1.user_id

/-- User `1` claims the address `10.0.0.5` with the right signature, then user `2` asks
for a challenge for the same address written `::ffff:10.0.0.5`. -/
def exFirstClaim : List Event :=
  [.request (exEnv 500 []) (exPost 1 (str "10.0.0.5") exKeyA),
   .request (exEnv 600 (List.replicate 32 1)) (exPost 2 (str "::ffff:10.0.0.5") [])]

/-- User `2` answers the challenge with the right signature. -/
def exSecondClaim : Event :=
  .request (exEnv 700 []) (exPost 2 (str "::ffff:10.0.0.5") exKeyB)

/-! ## Lemmas on the handler -/

theorem checkIPAndUpdate_nonces (env : Env) (st : Store) (req : request) :
    (checkIPAndUpdate env st req).2.1.globalNonceStore = st.globalNonceStore := by
  unfold checkIPAndUpdate
  cases queryHolder env.holderQueryFails st.users req.IPAddress with
  | error e => rfl
  | ok occupiedBy =>
    dsimp only
    split
    · cases execUpdate env.updateFails st.users req.IPAddress req.UserID with
      | none => rfl
      | some p => rfl
    · rfl

theorem verifySignature_nonces (verify : Bytes → Bytes → Bytes → Bool) (env : Env) (st : Store)
    (req : request) (entry : nonceEntry) :
    (verifySignature verify env st req entry).2.1.globalNonceStore = st.globalNonceStore := by
  unfold verifySignature
  cases base64Decode req.SigB64 with
  | none => rfl
  | some sig =>
    cases queryPubKey env.pubKeyQueryFails st.users req.UserID with
    | none => rfl
    | some pubKey =>
      dsimp only
      split
      · rfl
      · split
        · rfl
        · exact checkIPAndUpdate_nonces _ _ _

/-- The handler on a request that reaches phase 2: it looks the nonce up, and with a
live nonce deletes it and goes on to the section `Phase 2: verify signature`. -/
theorem handle_phase2_eq (verify : Bytes → Bytes → Bytes → Bool) (env : Env) (st : Store)
    (r : HttpRequest) (req : request) (hm : r.Method = str "POST") (hb : r.Body = some req)
    (hip : (ParseIP req.IPAddress).isSome) (hsig : req.SigB64 ≠ []) :
    httpHandleReplaceIP verify env st r =
      match st.globalNonceStore req.UserID with
      | none => (.error "no nonce" 403, st, [.nonceLoad req.UserID])
      | some entry =>
        if env.now > entry.expiry then (.error "no nonce" 403, st, [.nonceLoad req.UserID])
        else
          ((verifySignature verify env
              { st with globalNonceStore := mapDelete st.globalNonceStore req.UserID } req entry).1,
           (verifySignature verify env
              { st with globalNonceStore := mapDelete st.globalNonceStore req.UserID } req entry).2.1,
           [.nonceLoad req.UserID, .nonceDelete req.UserID] ++
             (verifySignature verify env
              { st with globalNonceStore := mapDelete st.globalNonceStore req.UserID }
              req entry).2.2) := by
  have hip2 : ¬ (ParseIP req.IPAddress).isNone = true := by
    cases h : ParseIP req.IPAddress <;> simp_all
  unfold httpHandleReplaceIP
  rw [if_neg (not_not.mpr hm), hb]
  dsimp only
  rw [if_neg hip2, if_neg hsig]

/-- The handler on a request that reaches phase 1. -/
theorem handle_phase1_eq (verify : Bytes → Bytes → Bytes → Bool) (env : Env) (st : Store)
    (r : HttpRequest) (req : request) (nonce : Bytes) (hm : r.Method = str "POST")
    (hb : r.Body = some req) (hip : (ParseIP req.IPAddress).isSome) (hsig : req.SigB64 = [])
    (hr : env.rand = some nonce) :
    httpHandleReplaceIP verify env st r =
      (.challenge (hexEncode nonce),
        { st with globalNonceStore :=
            mapSet st.globalNonceStore req.UserID ⟨nonce, env.now + nonceTTL⟩ },
        [.nonceStore req.UserID]) := by
  have hip2 : ¬ (ParseIP req.IPAddress).isNone = true := by
    cases h : ParseIP req.IPAddress <;> simp_all
  unfold httpHandleReplaceIP
  rw [if_neg (not_not.mpr hm), hb]
  dsimp only
  rw [if_neg hip2, if_pos hsig, hr]

/-- What a request can do to the nonce store: nothing, delete the entry of the user of a
phase-2 request, or set the entry of the user of a phase-1 request. -/
theorem handle_nonce_cases (verify : Bytes → Bytes → Bytes → Bool) (env : Env) (st : Store)
    (r : HttpRequest) :
    (httpHandleReplaceIP verify env st r).2.1.globalNonceStore = st.globalNonceStore ∨
    (∃ req, r.Body = some req ∧
      (httpHandleReplaceIP verify env st r).2.1.globalNonceStore =
        mapDelete st.globalNonceStore req.UserID) ∨
    (∃ req nonce, r.Body = some req ∧ r.Method = str "POST" ∧ (ParseIP req.IPAddress).isSome ∧
      req.SigB64 = [] ∧ env.rand = some nonce ∧
      (httpHandleReplaceIP verify env st r).2.1.globalNonceStore =
        mapSet st.globalNonceStore req.UserID ⟨nonce, env.now + nonceTTL⟩) := by
  by_cases hm : r.Method = str "POST"
  · cases hb : r.Body with
    | none =>
      left
      unfold httpHandleReplaceIP
      rw [if_neg (not_not.mpr hm), hb]
    | some req =>
      cases hip : ParseIP req.IPAddress with
      | none =>
        left
        unfold httpHandleReplaceIP
        rw [if_neg (not_not.mpr hm), hb]
        dsimp only
        rw [hip]
        rfl
      | some ip =>
        have hip2 : (ParseIP req.IPAddress).isSome := by simp [hip]
        by_cases hsig : req.SigB64 = []
        · cases hr : env.rand with
          | none =>
            left
            unfold httpHandleReplaceIP
            rw [if_neg (not_not.mpr hm), hb]
            dsimp only
            rw [hip, if_neg (by simp), if_pos hsig, hr]
          | some nonce =>
            right; right
            exact ⟨req, nonce, rfl, hm, hip2, hsig, rfl,
              by rw [handle_phase1_eq verify env st r req nonce hm hb hip2 hsig hr]⟩
        · rw [handle_phase2_eq verify env st r req hm hb hip2 hsig]
          cases hn : st.globalNonceStore req.UserID with
          | none => exact Or.inl rfl
          | some entry =>
            dsimp only
            split
            · exact Or.inl rfl
            · exact Or.inr (Or.inl ⟨req, rfl, verifySignature_nonces _ _ _ _ _⟩)
  · left
    unfold httpHandleReplaceIP
    rw [if_pos hm]

/-- A property of the entry of user `uid` that holds of the missing entry and held before
an event that issues no challenge for `uid` still holds after it: such an event leaves
the entry alone or removes it. -/
theorem step_entry_preserved (verify : Bytes → Bytes → Bytes → Bool) (uid : Nat)
    (Q : Option nonceEntry → Prop) (hQ : Q none) (st : Store) (ev : Event)
    (hno : ¬ issuesChallenge uid ev) (h : Q (st.globalNonceStore uid)) :
    Q ((step verify st ev).globalNonceStore uid) := by
  cases ev with
  | request env r =>
    show Q ((httpHandleReplaceIP verify env st r).2.1.globalNonceStore uid)
    rcases handle_nonce_cases verify env st r with h1 | ⟨req, _, h2⟩ |
      ⟨req, nonce, hb, hm, hip, hsig, hr, h3⟩
    · rw [h1]; exact h
    · rw [h2]
      unfold mapDelete
      split
      · exact hQ
      · exact h
    · rw [h3]
      unfold mapSet
      split
      · rename_i heq
        exact absurd ⟨hm, req, hb, heq.symm, hip, hsig, by simp [hr]⟩ hno
      · exact h
  | sweep now =>
    show Q ((sweep now st).globalNonceStore uid)
    unfold sweep
    dsimp only
    cases hn : st.globalNonceStore uid with
    | none => exact hQ
    | some entry =>
      dsimp only
      split
      · exact hQ
      · rw [hn] at h; exact h

/-- The same over a sequence of events. -/
theorem run_entry_preserved (verify : Bytes → Bytes → Bytes → Bool) (uid : Nat)
    (Q : Option nonceEntry → Prop) (hQ : Q none) (evs : List Event) :
    ∀ st : Store, (∀ ev ∈ evs, ¬ issuesChallenge uid ev) → Q (st.globalNonceStore uid) →
      Q ((run verify st evs).globalNonceStore uid) := by
  induction evs with
  | nil => intro st _ h; exact h
  | cons ev evs ih =>
    intro st hno h
    show Q ((run verify (step verify st ev) evs).globalNonceStore uid)
    exact ih _ (fun e he => hno e (List.mem_cons_of_mem _ he))
      (step_entry_preserved verify uid Q hQ st ev (hno ev (List.mem_cons_self _ _)) h)

/-- A phase-2 request that finds a live nonce removes it from the store. -/
theorem phase2_consumes (verify : Bytes → Bytes → Bytes → Bool) (env : Env) (st : Store)
    (uid : Nat) (r : HttpRequest) (entry : nonceEntry) (h : isPhase2 uid r)
    (hn : st.globalNonceStore uid = some entry) (hlive : ¬ env.now > entry.expiry) :
    (httpHandleReplaceIP verify env st r).2.1.globalNonceStore uid = none ∧
      (httpHandleReplaceIP verify env st r).2.2.take 2 = [.nonceLoad uid, .nonceDelete uid] := by
  obtain ⟨hm, req, hb, hu, hip, hsig⟩ := h
  subst hu
  rw [handle_phase2_eq verify env st r req hm hb hip hsig, hn]
  dsimp only
  rw [if_neg hlive]
  dsimp only
  rw [verifySignature_nonces]
  exact ⟨by simp [mapDelete], rfl⟩

/-- A phase-2 request for a user without entry, or with an expired one, is answered
`no nonce` after the look-up alone, and changes nothing. -/
theorem phase2_no_nonce (verify : Bytes → Bytes → Bytes → Bool) (env : Env) (st : Store)
    (uid : Nat) (r : HttpRequest) (h : isPhase2 uid r)
    (hn : ∀ e, st.globalNonceStore uid = some e → env.now > e.expiry) :
    httpHandleReplaceIP verify env st r = (.error "no nonce" 403, st, [.nonceLoad uid]) := by
  obtain ⟨hm, req, hb, hu, hip, hsig⟩ := h
  subst hu
  rw [handle_phase2_eq verify env st r req hm hb hip hsig]
  cases hs : st.globalNonceStore req.UserID with
  | none => rfl
  | some e =>
    dsimp only
    rw [if_pos (hn e hs)]

/-! ## Claims C2 and C3: single use and expiry of a nonce -/

/-- Claim C2.  Once a phase-2 request for a user has found that user's live nonce,
whatever the signature check then gives, every later phase-2 request for that user is
answered `no nonce` (403) as long as no new challenge is issued for the user in
between. -/
theorem consumed_nonce_never_verifies_again (verify : Bytes → Bytes → Bytes → Bool)
    (st : Store) (uid : Nat) (env1 : Env) (r1 : HttpRequest) (entry : nonceEntry)
    (h1 : isPhase2 uid r1) (hn : st.globalNonceStore uid = some entry)
    (hlive : ¬ env1.now > entry.expiry)
    (evs : List Event) (hno : ∀ ev ∈ evs, ¬ issuesChallenge uid ev)
    (env2 : Env) (r2 : HttpRequest) (h2 : isPhase2 uid r2) :
    (httpHandleReplaceIP verify env1 st r1).2.2.take 2 = [.nonceLoad uid, .nonceDelete uid] ∧
    (httpHandleReplaceIP verify env2
      (run verify (httpHandleReplaceIP verify env1 st r1).2.1 evs) r2).1 =
        .error "no nonce" 403 := by
  have hc := phase2_consumes verify env1 st uid r1 entry h1 hn hlive
  refine ⟨hc.2, ?_⟩
  have hnone := run_entry_preserved verify uid (fun o => o = none) rfl evs _ hno hc.1
  rw [phase2_no_nonce verify env2 _ uid r2 h2 (fun e he => by rw [hnone] at he; cases he)]

/-- Claim C3.  After a challenge issued for a user at time `t`, a phase-2 request for
that user arriving later than `t + 30 s`, with no new challenge for the user in between,
is answered `no nonce` (403); the handler only looks the nonce up: it makes no query to
the registry, does not call the signature check (whatever `verify` would say), and
leaves the state as it is. -/
theorem expired_nonce_is_rejected (verify : Bytes → Bytes → Bytes → Bool)
    (st : Store) (uid : Nat) (env0 : Env) (r0 : HttpRequest)
    (h0 : issuesChallenge uid (.request env0 r0))
    (evs : List Event) (hno : ∀ ev ∈ evs, ¬ issuesChallenge uid ev)
    (env2 : Env) (r2 : HttpRequest) (h2 : isPhase2 uid r2)
    (hlate : env2.now > env0.now + nonceTTL) :
    (∃ nonce, env0.rand = some nonce ∧
      (step verify st (.request env0 r0)).globalNonceStore uid =
        some ⟨nonce, env0.now + nonceTTL⟩) ∧
    httpHandleReplaceIP verify env2 (run verify (step verify st (.request env0 r0)) evs) r2 =
      (.error "no nonce" 403, run verify (step verify st (.request env0 r0)) evs,
        [.nonceLoad uid]) := by
  obtain ⟨hm, req, hb, hu, hip, hsig, hr⟩ := h0
  subst hu
  obtain ⟨nonce, hr⟩ := Option.isSome_iff_exists.mp hr
  have hissued : (step verify st (.request env0 r0)).globalNonceStore req.UserID =
      some ⟨nonce, env0.now + nonceTTL⟩ := by
    show (httpHandleReplaceIP verify env0 st r0).2.1.globalNonceStore req.UserID = _
    rw [handle_phase1_eq verify env0 st r0 req nonce hm hb hip hsig hr]
    simp [mapSet]
  refine ⟨⟨nonce, hr, hissued⟩, ?_⟩
  have hinv := run_entry_preserved verify req.UserID
    (fun o => ∀ e, o = some e → e.expiry ≤ env0.now + nonceTTL) (fun e he => by cases he)
    evs _ hno (fun e he => by rw [hissued] at he; cases he; exact le_refl _)
  exact phase2_no_nonce verify env2 _ req.UserID r2 h2
    (fun e he => lt_of_le_of_lt (hinv e he) hlate)

/-! ## What the handler does to the user table -/

/-- The section `check IP and update` leaves the user table alone, unless it answers
`free = true`: then the address was held by nobody or its first holder was the
requester, and the requester's rows carry the address afterwards. -/
theorem checkIPAndUpdate_users (env : Env) (st : Store) (req : request) :
    (checkIPAndUpdate env st req).2.1.users = st.users ∨
    (∃ w, (checkIPAndUpdate env st req).1 = .result true w ∧
      (checkIPAndUpdate env st req).2.1.users = setLatest st.users req.IPAddress req.UserID ∧
      (firstHolder st.users req.IPAddress = none ∨
        firstHolder st.users req.IPAddress = some req.UserID)) := by
  unfold checkIPAndUpdate queryHolder
  by_cases hq : env.holderQueryFails = true
  · rw [if_pos hq]; exact Or.inl rfl
  · rw [if_neg hq]
    dsimp only
    by_cases hfree : ((firstHolder st.users req.IPAddress).isNone ||
        firstHolder st.users req.IPAddress == some req.UserID) = true
    · rw [if_pos hfree]
      unfold execUpdate
      by_cases hu : env.updateFails = true
      · rw [if_pos hu]; exact Or.inl rfl
      · rw [if_neg hu]
        right
        dsimp only
        refine ⟨_, by rw [hfree], rfl, ?_⟩
        cases h : firstHolder st.users req.IPAddress with
        | none => exact Or.inl rfl
        | some v =>
          right
          rw [h] at hfree
          simpa using hfree
    · rw [if_neg hfree]
      exact Or.inl rfl

/-- The same for the section `Phase 2: verify signature`. -/
theorem verifySignature_users (verify : Bytes → Bytes → Bytes → Bool) (env : Env) (st : Store)
    (req : request) (entry : nonceEntry) :
    (verifySignature verify env st req entry).2.1.users = st.users ∨
    (∃ w, (verifySignature verify env st req entry).1 = .result true w ∧
      (verifySignature verify env st req entry).2.1.users =
        setLatest st.users req.IPAddress req.UserID ∧
      (firstHolder st.users req.IPAddress = none ∨
        firstHolder st.users req.IPAddress = some req.UserID)) := by
  unfold verifySignature
  cases base64Decode req.SigB64 with
  | none => exact Or.inl rfl
  | some sig =>
    cases queryPubKey env.pubKeyQueryFails st.users req.UserID with
    | none => exact Or.inl rfl
    | some pubKey =>
      dsimp only
      split
      · exact Or.inl rfl
      · split
        · exact Or.inl rfl
        · exact checkIPAndUpdate_users env st req

/-- The same for the whole handler: the user table changes only with an answer
`free = true` to a request whose address is an IP literal. -/
theorem handle_users_cases (verify : Bytes → Bytes → Bytes → Bool) (env : Env) (st : Store)
    (r : HttpRequest) :
    (httpHandleReplaceIP verify env st r).2.1.users = st.users ∨
    (∃ req w, r.Body = some req ∧ (ParseIP req.IPAddress).isSome ∧
      (httpHandleReplaceIP verify env st r).1 = .result true w ∧
      (httpHandleReplaceIP verify env st r).2.1.users =
        setLatest st.users req.IPAddress req.UserID ∧
      (firstHolder st.users req.IPAddress = none ∨
        firstHolder st.users req.IPAddress = some req.UserID)) := by
  by_cases hm : r.Method = str "POST"
  · cases hb : r.Body with
    | none =>
      left
      unfold httpHandleReplaceIP
      rw [if_neg (not_not.mpr hm), hb]
    | some req =>
      cases hip : ParseIP req.IPAddress with
      | none =>
        left
        unfold httpHandleReplaceIP
        rw [if_neg (not_not.mpr hm), hb]
        dsimp only
        rw [hip]
        rfl
      | some ip =>
        have hip2 : (ParseIP req.IPAddress).isSome := by simp [hip]
        by_cases hsig : req.SigB64 = []
        · left
          unfold httpHandleReplaceIP
          rw [if_neg (not_not.mpr hm), hb]
          dsimp only
          rw [hip, if_neg (by simp), if_pos hsig]
          cases env.rand <;> rfl
        · rw [handle_phase2_eq verify env st r req hm hb hip2 hsig]
          cases hn : st.globalNonceStore req.UserID with
          | none => exact Or.inl rfl
          | some entry =>
            dsimp only
            split
            · exact Or.inl rfl
            · rcases verifySignature_users verify env
                { st with globalNonceStore := mapDelete st.globalNonceStore req.UserID }
                req entry with h | ⟨w, h1, h2, h3⟩
              · exact Or.inl h
              · exact Or.inr ⟨req, w, rfl, hip2, h1, h2, h3⟩
  · left
    unfold httpHandleReplaceIP
    rw [if_pos hm]

/-- The handler on a phase-2 request that finds a live nonce and whose signature is
verified: it goes on to the section `check IP and update`. -/
theorem handle_verified_eq (verify : Bytes → Bytes → Bytes → Bool) (env : Env) (st : Store)
    (r : HttpRequest) (req : request) (entry : nonceEntry) (sig pubKey : Bytes)
    (hm : r.Method = str "POST") (hb : r.Body = some req)
    (hip : (ParseIP req.IPAddress).isSome) (hsig : req.SigB64 ≠ [])
    (hn : st.globalNonceStore req.UserID = some entry) (hlive : ¬ env.now > entry.expiry)
    (hdec : base64Decode req.SigB64 = some sig)
    (hkey : queryPubKey env.pubKeyQueryFails st.users req.UserID = some pubKey)
    (hlen : pubKey.length = 32) (hver : verify pubKey entry.val sig = true) :
    httpHandleReplaceIP verify env st r =
      ((checkIPAndUpdate env
          { st with globalNonceStore := mapDelete st.globalNonceStore req.UserID } req).1,
       (checkIPAndUpdate env
          { st with globalNonceStore := mapDelete st.globalNonceStore req.UserID } req).2.1,
       [.nonceLoad req.UserID, .nonceDelete req.UserID] ++
         ([.queryPubKey req.UserID, .verify] ++
           (checkIPAndUpdate env
            { st with globalNonceStore := mapDelete st.globalNonceStore req.UserID }
            req).2.2)) := by
  rw [handle_phase2_eq verify env st r req hm hb hip hsig, hn]
  dsimp only
  rw [if_neg hlive]
  unfold verifySignature
  rw [hdec]
  dsimp only
  rw [hkey]
  dsimp only
  rw [if_neg (not_not.mpr hlen), hver]
  rfl

/-- The section `check IP and update` when the store does not fail. -/
theorem checkIPAndUpdate_ok (env : Env) (st : Store) (req : request)
    (hq : env.holderQueryFails = false) (hu : env.updateFails = false) :
    checkIPAndUpdate env st req =
      if ((firstHolder st.users req.IPAddress).isNone ||
          firstHolder st.users req.IPAddress == some req.UserID) = true then
        (.result true (rowsOf st.users req.UserID == 1),
          { st with users := setLatest st.users req.IPAddress req.UserID },
          [.queryHolder req.IPAddress, .update req.IPAddress req.UserID])
      else (.result false false, st, [.queryHolder req.IPAddress]) := by
  unfold checkIPAndUpdate queryHolder execUpdate
  rw [hq, hu]
  simp only [Bool.false_eq_true, if_false]
  split
  · rename_i h; rw [h]
  · rename_i h
    have h2 : ((firstHolder st.users req.IPAddress).isNone ||
          firstHolder st.users req.IPAddress == some req.UserID) = false :=
      Bool.eq_false_iff.mpr h
    rw [h2]

/-- Nobody holds an address exactly when no row carries it. -/
theorem firstHolder_eq_none (users : List UserRow) (ip : Bytes) :
    firstHolder users ip = none ↔ ∀ row ∈ users, row.latest_ip ≠ ip := by
  unfold firstHolder
  rw [Option.map_eq_none', List.find?_eq_none]
  simp

/-- The first holder of an address is a row of the table that carries it. -/
theorem firstHolder_eq_some (users : List UserRow) (ip : Bytes) (uid : Nat)
    (h : firstHolder users ip = some uid) :
    ∃ row ∈ users, row.latest_ip = ip ∧ row.user_id = uid := by
  unfold firstHolder at h
  rw [Option.map_eq_some'] at h
  obtain ⟨row, hf, hid⟩ := h
  exact ⟨row, List.mem_of_find?_eq_some hf, by simpa using List.find?_some hf, hid⟩

/-- After a claim of an address nobody held, by a user with a row, the first holder of
the address is that user. -/
theorem firstHolder_setLatest (users : List UserRow) (ip : Bytes) (uid : Nat)
    (hfree : ∀ row ∈ users, row.latest_ip ≠ ip) (hrow : rowsOf users uid = 1) :
    firstHolder (setLatest users ip uid) ip = some uid := by
  cases h : firstHolder (setLatest users ip uid) ip with
  | none =>
    exfalso
    rw [firstHolder_eq_none] at h
    have hne : (users.filter fun r => r.user_id = uid) ≠ [] := by
      intro h0
      unfold rowsOf at hrow
      rw [h0] at hrow
      cases hrow
    obtain ⟨r0, hr0⟩ := List.exists_mem_of_ne_nil _ hne
    rw [List.mem_filter] at hr0
    have hid : r0.user_id = uid := by simpa using hr0.2
    refine h (if r0.user_id = uid then { r0 with latest_ip := ip } else r0) ?_ ?_
    · unfold setLatest
      exact List.mem_map_of_mem _ hr0.1
    · rw [if_pos hid]
  | some v =>
    obtain ⟨row, hmem, hip, hid⟩ := firstHolder_eq_some _ _ _ h
    unfold setLatest at hmem
    rw [List.mem_map] at hmem
    obtain ⟨r0, hr0, hrow0⟩ := hmem
    by_cases hu : r0.user_id = uid
    · rw [if_pos hu] at hrow0
      rw [← hid, ← hrow0, hu]
    · rw [if_neg hu] at hrow0
      rw [hrow0] at hr0
      exact absurd hip (hfree row hr0)

/-! ## Claim C4: the result of a verified claim -/

/-- Claim C4, as the handler has it.  A phase-2 request that passes the nonce and
signature checks (the store answering its statements) gets the JSON result
`free, written`, where `free` holds exactly when no row carries the requested address
in the text of the request or the first row carrying that text is the requester's, and
`written` exactly when `free` holds and the `UPDATE` of the requester's rows affected
one row.  In particular, when no row carries the text and the requester has one row,
the result is `free = true, written = true`, and a different user who then passes the
checks with the address written in the same text, on the user table so obtained, gets
`free = false, written = false`. -/
theorem verified_claim_result (verify : Bytes → Bytes → Bytes → Bool) (env : Env)
    (st : Store) (r : HttpRequest) (req : request) (entry : nonceEntry) (sig pubKey : Bytes)
    (hm : r.Method = str "POST") (hb : r.Body = some req)
    (hip : (ParseIP req.IPAddress).isSome) (hsig : req.SigB64 ≠ [])
    (hn : st.globalNonceStore req.UserID = some entry) (hlive : ¬ env.now > entry.expiry)
    (hdec : base64Decode req.SigB64 = some sig)
    (hkey : queryPubKey env.pubKeyQueryFails st.users req.UserID = some pubKey)
    (hlen : pubKey.length = 32) (hver : verify pubKey entry.val sig = true)
    (hq : env.holderQueryFails = false) (hu : env.updateFails = false) :
    (∃ free written,
      (httpHandleReplaceIP verify env st r).1 = .result free written ∧
      (free = true ↔ (∀ row ∈ st.users, row.latest_ip ≠ req.IPAddress) ∨
        firstHolder st.users req.IPAddress = some req.UserID) ∧
      (written = true ↔ free = true ∧ rowsOf st.users req.UserID = 1)) ∧
    ((∀ row ∈ st.users, row.latest_ip ≠ req.IPAddress) → rowsOf st.users req.UserID = 1 →
      (httpHandleReplaceIP verify env st r).1 = .result true true ∧
      ∀ (env2 : Env) (st2 : Store) (r2 : HttpRequest) (req2 : request) (entry2 : nonceEntry)
        (sig2 pubKey2 : Bytes),
        st2.users = (httpHandleReplaceIP verify env st r).2.1.users →
        req2.UserID ≠ req.UserID → req2.IPAddress = req.IPAddress →
        r2.Method = str "POST" → r2.Body = some req2 → req2.SigB64 ≠ [] →
        st2.globalNonceStore req2.UserID = some entry2 → ¬ env2.now > entry2.expiry →
        base64Decode req2.SigB64 = some sig2 →
        queryPubKey env2.pubKeyQueryFails st2.users req2.UserID = some pubKey2 →
        pubKey2.length = 32 → verify pubKey2 entry2.val sig2 = true →
        env2.holderQueryFails = false → env2.updateFails = false →
        (httpHandleReplaceIP verify env2 st2 r2).1 = .result false false) := by
  have heq := handle_verified_eq verify env st r req entry sig pubKey hm hb hip hsig hn hlive
    hdec hkey hlen hver
  rw [checkIPAndUpdate_ok env _ req hq hu] at heq
  dsimp only at heq
  constructor
  · by_cases hfree : ((firstHolder st.users req.IPAddress).isNone ||
        firstHolder st.users req.IPAddress == some req.UserID) = true
    · rw [if_pos hfree] at heq
      refine ⟨true, rowsOf st.users req.UserID == 1, by rw [heq], ?_, by simp⟩
      rw [← firstHolder_eq_none]
      simpa using hfree
    · rw [if_neg hfree] at heq
      refine ⟨false, false, by rw [heq], ?_, by simp⟩
      rw [← firstHolder_eq_none]
      simpa using hfree
  · intro hfree hrow
    have hnone := (firstHolder_eq_none st.users req.IPAddress).mpr hfree
    rw [hnone] at heq
    simp only [Option.isNone_none, Bool.true_or, if_true] at heq
    refine ⟨by rw [heq, hrow]; rfl, ?_⟩
    intro env2 st2 r2 req2 entry2 sig2 pubKey2 hst2 hne hsame hm2 hb2 hsig2 hn2 hlive2 hdec2
      hkey2 hlen2 hver2 hq2 hu2
    have hip2 : (ParseIP req2.IPAddress).isSome := by rw [hsame]; exact hip
    have heq2 := handle_verified_eq verify env2 st2 r2 req2 entry2 sig2 pubKey2 hm2 hb2 hip2
      hsig2 hn2 hlive2 hdec2 hkey2 hlen2 hver2
    rw [checkIPAndUpdate_ok env2 _ req2 hq2 hu2] at heq2
    dsimp only at heq2
    have husers : st2.users = setLatest st.users req.IPAddress req.UserID := by
      rw [hst2, heq]
    have hholder : firstHolder st2.users req2.IPAddress = some req.UserID := by
      rw [husers, hsame]
      exact firstHolder_setLatest st.users req.IPAddress req.UserID hfree hrow
    rw [hholder] at heq2
    have hneq : (some req.UserID == some req2.UserID) = false := by
      simpa using fun h => hne h.symm
    simp only [Option.isNone_some, Bool.false_or, hneq, Bool.false_eq_true, if_false] at heq2
    rw [heq2]

/-! ## Claim C5: one holder per address text -/

/-- The text of an IP literal is not empty. -/
theorem ParseIP_nil : ParseIP [] = none := rfl

/-- The `UPDATE` of a claim answered `free = true` keeps the invariant. -/
theorem setLatest_uniqueTextHolders (users : List UserRow) (ip : Bytes) (uid : Nat)
    (hinv : uniqueTextHolders users) (hne : ip ≠ [])
    (hfree : firstHolder users ip = none ∨ firstHolder users ip = some uid) :
    uniqueTextHolders (setLatest users ip uid) := by
  have key : ∀ r0 ∈ users, r0.latest_ip = ip → r0.user_id = uid := by
    intro r0 hr0 hip0
    rcases hfree with h | h
    · exact absurd hip0 ((firstHolder_eq_none users ip).mp h r0 hr0)
    · obtain ⟨row, hmem, hip, hid⟩ := firstHolder_eq_some users ip uid h
      rw [← hid]
      exact hinv r0 hr0 row hmem (by rw [hip0, hip]) (by rw [hip0]; exact hne)
  intro r hr r1 hr1 hsame hnonempty
  unfold setLatest at hr hr1
  rw [List.mem_map] at hr hr1
  obtain ⟨a, ha, rfl⟩ := hr
  obtain ⟨b, hb, rfl⟩ := hr1
  by_cases hau : a.user_id = uid <;> by_cases hbu : b.user_id = uid
  · simp only [hau, hbu, if_true]
  · simp only [hau, hbu, if_true, if_false] at hsame ⊢
    exact absurd (key b hb hsame.symm) hbu
  · simp only [hau, hbu, if_true, if_false] at hsame ⊢
    exact absurd (key a ha hsame) hau
  · simp only [hau, hbu, if_false] at hsame hnonempty ⊢
    exact hinv a ha b hb hsame hnonempty

/-- One event keeps the invariant. -/
theorem step_uniqueTextHolders (verify : Bytes → Bytes → Bytes → Bool) (st : Store) (ev : Event)
    (hinv : uniqueTextHolders st.users) : uniqueTextHolders (step verify st ev).users := by
  cases ev with
  | request env r =>
    show uniqueTextHolders (httpHandleReplaceIP verify env st r).2.1.users
    rcases handle_users_cases verify env st r with h | ⟨req, w, _, hip, _, h, hfree⟩
    · rw [h]; exact hinv
    · rw [h]
      refine setLatest_uniqueTextHolders st.users req.IPAddress req.UserID hinv ?_ hfree
      intro h0
      rw [h0, ParseIP_nil] at hip
      cases hip
  | sweep now => exact hinv

/-- A sequence of events keeps the invariant on the stored texts. -/
theorem run_uniqueTextHolders (verify : Bytes → Bytes → Bytes → Bool) (evs : List Event)
    (st : Store) (hinv : uniqueTextHolders st.users) :
    uniqueTextHolders (run verify st evs).users := by
  induction evs generalizing st with
  | nil => exact hinv
  | cons ev evs ih => exact ih (step verify st ev) (step_uniqueTextHolders verify st ev hinv)

/-! ## Claim C6: unknown user and bad signature -/

/-- Claim C6, as the handler has it.  Of two phase-2 requests that each find a live nonce
and carry a well-formed base64 signature, the one naming a user without row is answered
`user not found` and the one naming a user with a 32-byte key and a signature that does
not verify is answered `signature fail`: both with status 403, but with different
bodies. -/
theorem unknown_user_and_bad_signature_answers (verify : Bytes → Bytes → Bytes → Bool)
    (env1 env2 : Env) (st1 st2 : Store) (r1 r2 : HttpRequest) (req1 req2 : request)
    (entry1 entry2 : nonceEntry) (sig1 sig2 pubKey2 : Bytes)
    (hm1 : r1.Method = str "POST") (hb1 : r1.Body = some req1)
    (hip1 : (ParseIP req1.IPAddress).isSome) (hsig1 : req1.SigB64 ≠ [])
    (hn1 : st1.globalNonceStore req1.UserID = some entry1) (hlive1 : ¬ env1.now > entry1.expiry)
    (hdec1 : base64Decode req1.SigB64 = some sig1)
    (hunknown : ∀ row ∈ st1.users, row.user_id ≠ req1.UserID)
    (hm2 : r2.Method = str "POST") (hb2 : r2.Body = some req2)
    (hip2 : (ParseIP req2.IPAddress).isSome) (hsig2 : req2.SigB64 ≠ [])
    (hn2 : st2.globalNonceStore req2.UserID = some entry2) (hlive2 : ¬ env2.now > entry2.expiry)
    (hdec2 : base64Decode req2.SigB64 = some sig2)
    (hkey2 : queryPubKey env2.pubKeyQueryFails st2.users req2.UserID = some pubKey2)
    (hlen2 : pubKey2.length = 32) (hbad : verify pubKey2 entry2.val sig2 = false) :
    (httpHandleReplaceIP verify env1 st1 r1).1 = .error "user not found" 403 ∧
    (httpHandleReplaceIP verify env2 st2 r2).1 = .error "signature fail" 403 ∧
    (httpHandleReplaceIP verify env1 st1 r1).1.status =
      (httpHandleReplaceIP verify env2 st2 r2).1.status ∧
    (httpHandleReplaceIP verify env1 st1 r1).1.body ≠
      (httpHandleReplaceIP verify env2 st2 r2).1.body := by
  have hq1 : queryPubKey env1.pubKeyQueryFails st1.users req1.UserID = none := by
    unfold queryPubKey
    split
    · rfl
    · rw [Option.map_eq_none', List.find?_eq_none]
      intro row hrow
      simpa using hunknown row hrow
  have e1 : (httpHandleReplaceIP verify env1 st1 r1).1 = .error "user not found" 403 := by
    rw [handle_phase2_eq verify env1 st1 r1 req1 hm1 hb1 hip1 hsig1, hn1]
    dsimp only
    rw [if_neg hlive1]
    unfold verifySignature
    rw [hdec1]
    dsimp only
    rw [hq1]
  have e2 : (httpHandleReplaceIP verify env2 st2 r2).1 = .error "signature fail" 403 := by
    rw [handle_phase2_eq verify env2 st2 r2 req2 hm2 hb2 hip2 hsig2, hn2]
    dsimp only
    rw [if_neg hlive2]
    unfold verifySignature
    rw [hdec2]
    dsimp only
    rw [hkey2]
    dsimp only
    rw [if_neg (not_not.mpr hlen2), hbad]
    rfl
  refine ⟨e1, e2, ?_, ?_⟩
  · rw [e1, e2]; rfl
  · rw [e1, e2]; decide

/-! ## Claim C7: rejections change nothing -/

/-- Claim C7.  A request answered with an error (`bad json`, `invalid ip`, `no nonce`,
`bad sig encoding`, `signature fail` and every other `http.Error`), or with
`free = false` because another user holds the address, leaves the user table exactly as
it was; and a request whose `ip_address` is not an IP literal is rejected without any
access to the nonce store or the registry, the state being unchanged. -/
theorem rejection_leaves_user_table (verify : Bytes → Bytes → Bytes → Bool) (env : Env)
    (st : Store) (r : HttpRequest) :
    ((httpHandleReplaceIP verify env st r).1 = .error "bad json" 400 ∨
      (httpHandleReplaceIP verify env st r).1 = .error "invalid ip" 400 ∨
      (httpHandleReplaceIP verify env st r).1 = .error "no nonce" 403 ∨
      (httpHandleReplaceIP verify env st r).1 = .error "bad sig encoding" 400 ∨
      (httpHandleReplaceIP verify env st r).1 = .error "signature fail" 403 ∨
      (∃ msg status, (httpHandleReplaceIP verify env st r).1 = .error msg status) ∨
      (∃ w, (httpHandleReplaceIP verify env st r).1 = .result false w) →
        (httpHandleReplaceIP verify env st r).2.1.users = st.users) ∧
    (∀ req, r.Body = some req → ParseIP req.IPAddress = none →
      httpHandleReplaceIP verify env st r =
        (if r.Method ≠ str "POST" then .error "POST only" 405 else .error "invalid ip" 400,
         st, [])) := by
  constructor
  · intro hrej
    rcases handle_users_cases verify env st r with h | ⟨req, w, _, _, hres, _, _⟩
    · exact h
    · exfalso
      rw [hres] at hrej
      rcases hrej with h | h | h | h | h | ⟨_, _, h⟩ | ⟨_, h⟩ <;> cases h
  · intro req hb hip
    unfold httpHandleReplaceIP
    split
    · rfl
    · rw [hb]
      dsimp only
      rw [hip]
      rfl

/-! ## Claim C1: the local relay among its own peers -/

/-- Claim C1 fails on the code.  With the local relay `10.0.0.1` registered through
`AddServer`, one other relay and one user in the local subnet, the query
`server_privip <> $1` compares the stored 16-byte address with the text `10.0.0.1` and
keeps the local row: the peer set handed to `ConfigureDevice` has 3 entries, the first
of which is built from the local relay's own row. -/
theorem local_relay_is_its_own_peer :
    exServers.rows.map (fun r => r.server_privip) =
      [v4InV6Prefix ++ [10, 0, 0, 1], v4InV6Prefix ++ [10, 0, 1, 1]] ∧
    localAddress [] [.ipnet [10, 0, 0, 1] [255, 255, 255, 255]] = str "10.0.0.1" ∧
    peer_server_SQL exServers.rows (str "10.0.0.1") = exServers.rows ∧
    ((UpdateConnection exSyncEnv exServers.rows exUserTable.rows).configured.map
      fun c => c.Peers.map fun p => p.AllowedIPs.map fun n => n.IP) =
      some [[some (v4InV6Prefix ++ [10, 0, 0, 1])], [some (v4InV6Prefix ++ [10, 0, 1, 1])],
        [some (v4InV6Prefix ++ [10, 0, 0, 5])]] ∧
    ((UpdateConnection exSyncEnv exServers.rows exUserTable.rows).configured.map
      fun c => c.Peers.length) = some 3 := by
  decide


/-! ## Claims C8 to C10: validation and conflicts in the registry store -/

/-- The function `ParseKey` succeeds exactly on the texts that decode to 32 bytes. -/
theorem ParseKey_isSome_iff (s : Bytes) : (ParseKey s).isSome = true ↔ decodesToKey s := by
  unfold ParseKey decodesToKey NewKey KeyLen
  cases base64Decode s with
  | none => simp
  | some b =>
    by_cases h : b.length = 32
    · simp [h]
    · simp [h]

/-- The placeholder name has 19 bytes. -/
theorem default_server_name_length : (str "default_server_name").length = 19 := by decide

/-- Claim C8.  `AddServer` issues its `INSERT` exactly when the public key and the
pre-shared key each decode to 32 bytes, the name has at most 64 bytes, the public and
the private IP parse as IP literals and the private IP lies in `10.0.0.0/8`; an empty
name is replaced by `default_server_name`.  Otherwise it returns, without issuing any
statement and with the table unchanged, an error whose code names the first failing
check in the order public key (-1), pre-shared key (-2), name (-3), public IP (-4),
private IP (-5), mesh block (-6). -/
theorem AddServer_validation (fault : Option DbErr) (db : ServerTable)
    (server_name server_pubip : Bytes) (server_port : Nat)
    (server_privip server_pubkey server_presharedkey : Bytes) :
    (((AddServer fault db server_name server_pubip server_port server_privip server_pubkey
        server_presharedkey).issued.isSome = true) ↔
      (decodesToKey server_pubkey ∧ decodesToKey server_presharedkey ∧
        server_name.length ≤ 64 ∧ (ParseIP server_pubip).isSome = true ∧
        ∃ privIP, ParseIP server_privip = some privIP ∧ subnet10.Contains privIP = true)) ∧
    (∀ a, (AddServer fault db server_name server_pubip server_port server_privip server_pubkey
        server_presharedkey).issued = some a →
      a.server_name =
        if server_name.length = 0 then str "default_server_name" else server_name) ∧
    ((AddServer fault db server_name server_pubip server_port server_privip server_pubkey
        server_presharedkey).issued = none →
      (AddServer fault db server_name server_pubip server_port server_privip server_pubkey
        server_presharedkey).table = db ∧
      (AddServer fault db server_name server_pubip server_port server_privip server_pubkey
        server_presharedkey).err.isSome = true ∧
      (AddServer fault db server_name server_pubip server_port server_privip server_pubkey
        server_presharedkey).id =
        if ¬ (ParseKey server_pubkey).isSome then -1
        else if ¬ (ParseKey server_presharedkey).isSome then -2
        else if 64 < server_name.length then -3
        else if ¬ (ParseIP server_pubip).isSome then -4
        else if ¬ (ParseIP server_privip).isSome then -5
        else -6) := by
  have hname : (if server_name.length = 0 then str "default_server_name"
      else server_name).length > 64 ↔ 64 < server_name.length := by
    split
    · rename_i h
      rw [default_server_name_length, h]
      decide
    · exact Iff.rfl
  rw [← ParseKey_isSome_iff, ← ParseKey_isSome_iff]
  unfold AddServer
  dsimp only
  cases h1 : ParseKey server_pubkey with
  | none => simp
  | some wgpubkey =>
    cases h2 : ParseKey server_presharedkey with
    | none => simp
    | some wgpsk =>
      dsimp only
      by_cases h3 : 64 < server_name.length
      · rw [if_pos (hname.mpr h3)]
        simp [h3]
      · rw [if_neg (fun h => h3 (hname.mp h))]
        cases h4 : ParseIP server_pubip with
        | none => simp [h3]
        | some pubIP =>
          cases h5 : ParseIP server_privip with
          | none => simp [h3]
          | some privIP =>
            dsimp only
            by_cases h6 : subnet10.Contains privIP = true
            · have h3' : server_name.length ≤ 64 := Nat.le_of_not_lt h3
              rw [if_neg (by simp [h6])]
              cases insertServer fault db _ with
              | error e => simp [h3', h6]
              | ok p => simp [h3', h6]
            · rw [if_pos (by simp [h6])]
              simp [h3, h6]

/-- Claim C9.  When the input of `AddServer` passes every check and its private address,
in 16-byte form, is the private address of a stored server (in whatever text the
address is written), `AddServer` returns the code -7 with an error and the server table
is unchanged; unless the store fails on its own, the error wraps the violation of the
uniqueness constraint. -/
theorem AddServer_conflict (fault : Option DbErr) (db : ServerTable)
    (server_name server_pubip : Bytes) (server_port : Nat)
    (server_privip server_pubkey server_presharedkey privIP : Bytes)
    (hpub : decodesToKey server_pubkey) (hpsk : decodesToKey server_presharedkey)
    (hname : server_name.length ≤ 64) (hpubip : (ParseIP server_pubip).isSome = true)
    (hpriv : ParseIP server_privip = some privIP) (hmesh : subnet10.Contains privIP = true)
    (hdup : ∃ row ∈ db.rows, some row.server_privip = To16 privIP) :
    (AddServer fault db server_name server_pubip server_port server_privip server_pubkey
      server_presharedkey).id = -7 ∧
    (AddServer fault db server_name server_pubip server_port server_privip server_pubkey
      server_presharedkey).err.isSome = true ∧
    (AddServer fault db server_name server_pubip server_port server_privip server_pubkey
      server_presharedkey).table = db ∧
    (fault = none →
      (AddServer fault db server_name server_pubip server_port server_privip server_pubkey
        server_presharedkey).err =
        some (.wrap "error when inserting into Relay Server Table: " .constraint)) := by
  have hnm : ¬ (if server_name.length = 0 then str "default_server_name"
      else server_name).length > 64 := by
    split
    · rw [default_server_name_length]; decide
    · exact Nat.not_lt.mpr hname
  obtain ⟨wgpubkey, h1⟩ := Option.isSome_iff_exists.mp ((ParseKey_isSome_iff _).mpr hpub)
  obtain ⟨wgpsk, h2⟩ := Option.isSome_iff_exists.mp ((ParseKey_isSome_iff _).mpr hpsk)
  obtain ⟨pubIP, h4⟩ := Option.isSome_iff_exists.mp hpubip
  obtain ⟨row, hrow, hrowip⟩ := hdup
  have hins : ∀ a : ServerInsert, a.server_privip = To16 privIP →
      insertServer fault db a = .error (fault.getD .constraint) := by
    intro a ha
    unfold insertServer
    cases fault with
    | some e => rfl
    | none =>
      dsimp only
      rw [ha, ← hrowip]
      cases a.server_pubip with
      | none => rfl
      | some pubip =>
        dsimp only
        split
        · rfl
        · rw [if_pos (List.any_eq_true.mpr ⟨row, hrow, by simp⟩)]
          rfl
  unfold AddServer
  dsimp only
  rw [h1, h2]
  dsimp only
  rw [if_neg hnm, h4, hpriv]
  dsimp only
  rw [if_neg (by simp [hmesh]), hins _ rfl]
  refine ⟨rfl, rfl, rfl, ?_⟩
  intro hf
  rw [hf]
  rfl

/-- Claim C10.  `AddUser` issues its `INSERT` exactly when the public key decodes to 32
bytes, the username has 1 to 64 bytes, each at most `0x7F`, and the display name is
valid UTF-8 of 1 to 128 bytes; otherwise it returns a negative code with an error,
issues no statement and leaves the table unchanged.  The latest address takes no part
in the checks: whether the `INSERT` is issued does not depend on it, and it is passed
to the `INSERT` as it is. -/
theorem AddUser_validation (fault : Option DbErr) (db : UserTable)
    (username display_name pubkey latest_ip : Bytes) :
    (((AddUser fault db username display_name pubkey latest_ip).issued.isSome = true) ↔
      (decodesToKey pubkey ∧ (1 ≤ username.length ∧ username.length ≤ 64) ∧
        (∀ b ∈ username, b ≤ 0x7F) ∧ ValidString display_name = true ∧
        (1 ≤ display_name.length ∧ display_name.length ≤ 128))) ∧
    ((AddUser fault db username display_name pubkey latest_ip).issued = none →
      (AddUser fault db username display_name pubkey latest_ip).id < 0 ∧
      (AddUser fault db username display_name pubkey latest_ip).err.isSome = true ∧
      (AddUser fault db username display_name pubkey latest_ip).table = db) ∧
    (∀ other_ip, (AddUser fault db username display_name pubkey other_ip).issued.isSome =
      (AddUser fault db username display_name pubkey latest_ip).issued.isSome) ∧
    (∀ a, (AddUser fault db username display_name pubkey latest_ip).issued = some a →
      a.latest_ip = latest_ip) := by
  have main : ∀ ip : Bytes,
      (((AddUser fault db username display_name pubkey ip).issued.isSome = true) ↔
        (decodesToKey pubkey ∧ (1 ≤ username.length ∧ username.length ≤ 64) ∧
          (∀ b ∈ username, b ≤ 0x7F) ∧ ValidString display_name = true ∧
          (1 ≤ display_name.length ∧ display_name.length ≤ 128))) ∧
      ((AddUser fault db username display_name pubkey ip).issued = none →
        (AddUser fault db username display_name pubkey ip).id < 0 ∧
        (AddUser fault db username display_name pubkey ip).err.isSome = true ∧
        (AddUser fault db username display_name pubkey ip).table = db) ∧
      (∀ a, (AddUser fault db username display_name pubkey ip).issued = some a →
        a.latest_ip = ip) := by
    intro ip
    rw [← ParseKey_isSome_iff]
    unfold AddUser
    cases h1 : ParseKey pubkey with
    | none => simp
    | some wgpubkey =>
      dsimp only
      by_cases h2 : username.length ≤ 0 ∨ username.length > 64
      · rw [if_pos h2]
        have : ¬ (1 ≤ username.length ∧ username.length ≤ 64) := by omega
        simp [this]
      · rw [if_neg h2]
        have h2' : 1 ≤ username.length ∧ username.length ≤ 64 := by omega
        by_cases h3 : (username.any fun b => decide (b > 0x7F)) = true
        · rw [if_pos h3]
          have : ¬ ∀ b ∈ username, b ≤ 0x7F := by
            rw [List.any_eq_true] at h3
            obtain ⟨b, hb, hgt⟩ := h3
            intro hall
            have := hall b hb
            have hgt2 : b > 0x7F := by simpa using hgt
            omega
          simp [this]
        · rw [if_neg h3]
          have h3' : ∀ b ∈ username, b ≤ 0x7F := by
            intro b hb
            by_contra hgt
            exact h3 (List.any_eq_true.mpr ⟨b, hb, by simpa using hgt⟩)
          by_cases h4 : ValidString display_name = true
          · rw [if_neg (by simp [h4])]
            by_cases h5 : display_name.length ≤ 0 ∨ display_name.length > 128
            · rw [if_pos h5]
              have : ¬ (1 ≤ display_name.length ∧ display_name.length ≤ 128) := by omega
              simp [this]
            · rw [if_neg h5]
              have h5' : 1 ≤ display_name.length ∧ display_name.length ≤ 128 := by omega
              cases insertUser fault db _ with
              | error e =>
                dsimp only
                split <;> simp [h2', h4, h5'] <;> exact h3'
              | ok p =>
                simp [h2', h4, h5']
                exact h3'
          · rw [if_pos (by simp [h4])]
            simp [h4]
  refine ⟨(main latest_ip).1, (main latest_ip).2.1, ?_, (main latest_ip).2.2⟩
  intro other_ip
  rw [Bool.eq_iff_iff, (main other_ip).1, (main latest_ip).1]


/-! ## Instances of the theorems above -/

/-- An instance of claim C2: user `1` spends the nonce on a wrong signature at time 500;
after a wake-up of the purging goroutine and a challenge for user `2`, the right
signature of the spent nonce is answered `no nonce`. -/
theorem consumed_nonce_never_verifies_again_witness :
    (httpHandleReplaceIP exVerify (exEnv 800 [])
      (run exVerify
        (httpHandleReplaceIP exVerify (exEnv 500 []) exStore
          (exPost 1 (str "10.0.0.5") exKeyB)).2.1
        [.sweep 600, .request (exEnv 700 (List.replicate 32 1)) (exPost 2 (str "10.0.0.6") [])])
      (exPost 1 (str "10.0.0.5") exKeyA)).1 = .error "no nonce" 403 :=
  (consumed_nonce_never_verifies_again exVerify exStore 1 (exEnv 500 [])
    (exPost 1 (str "10.0.0.5") exKeyB) ⟨List.replicate 32 0, 1000⟩
    ⟨rfl, _, rfl, rfl, by decide, by decide⟩ rfl (by decide)
    [.sweep 600, .request (exEnv 700 (List.replicate 32 1)) (exPost 2 (str "10.0.0.6") [])]
    (by
      intro ev hev
      rcases List.mem_cons.mp hev with rfl | hev
      · exact fun h => h
      · rcases List.mem_cons.mp hev with rfl | hev
        · rintro ⟨_, req, hb, hu, _⟩
          cases hb
          exact absurd hu (by decide)
        · cases hev)
    (exEnv 800 []) (exPost 1 (str "10.0.0.5") exKeyA)
    ⟨rfl, _, rfl, rfl, by decide, by decide⟩).2

/-- An instance of claim C3: a challenge for user `2` at time 100, and the right
signature of its nonce one nanosecond after the 30 seconds have passed. -/
theorem expired_nonce_is_rejected_witness :
    (httpHandleReplaceIP exVerify (exEnv (100 + nonceTTL + 1) [])
      (run exVerify
        (step exVerify exStore
          (.request (exEnv 100 (List.replicate 32 1)) (exPost 2 (str "10.0.0.6") [])))
        [.sweep 200])
      (exPost 2 (str "10.0.0.6") exKeyB)).1 = .error "no nonce" 403 ∧
    (httpHandleReplaceIP exVerify (exEnv (100 + nonceTTL + 1) [])
      (run exVerify
        (step exVerify exStore
          (.request (exEnv 100 (List.replicate 32 1)) (exPost 2 (str "10.0.0.6") [])))
        [.sweep 200])
      (exPost 2 (str "10.0.0.6") exKeyB)).2.2 = [.nonceLoad 2] := by
  have h := (expired_nonce_is_rejected exVerify exStore 2 (exEnv 100 (List.replicate 32 1))
    (exPost 2 (str "10.0.0.6") []) ⟨rfl, _, rfl, rfl, by decide, rfl, rfl⟩
    [.sweep 200]
    (by
      intro ev hev
      rcases List.mem_cons.mp hev with rfl | hev
      · exact fun h => h
      · cases hev)
    (exEnv (100 + nonceTTL + 1) []) (exPost 2 (str "10.0.0.6") exKeyB)
    ⟨rfl, _, rfl, rfl, by decide, by decide⟩ (by decide)).2
  exact ⟨congrArg Prod.fst h, congrArg (fun o => o.2.2) h⟩

/-- An instance of claim C4 as the handler has it: user `1` claims the address
`10.0.0.5`, which no row carries, with the right signature. -/
theorem verified_claim_result_witness :
    (httpHandleReplaceIP exVerify (exEnv 500 []) exStore
      (exPost 1 (str "10.0.0.5") exKeyA)).1 = .result true true :=
  ((verified_claim_result exVerify (exEnv 500 []) exStore (exPost 1 (str "10.0.0.5") exKeyA)
    ⟨1, str "10.0.0.5", exKeyA⟩ ⟨List.replicate 32 0, 1000⟩ (List.replicate 32 0)
    (List.replicate 32 2) rfl rfl (by decide) (by decide) rfl (by decide) (by decide)
    (by decide) (by decide) (by decide) rfl rfl).2 (by decide) (by decide)).1


/-- Claim C6 as stated fails on the code: user `9` has no row and user `1` sends a wrong
signature; the two answers have the same status but not the same body. -/
theorem unknown_user_and_bad_signature_differ :
    ¬ ((httpHandleReplaceIP exVerify (exEnv 500 []) exStore
          (exPost 9 (str "10.0.0.5") exKeyA)).1.status =
        (httpHandleReplaceIP exVerify (exEnv 500 []) exStore
          (exPost 1 (str "10.0.0.5") exKeyB)).1.status ∧
      (httpHandleReplaceIP exVerify (exEnv 500 []) exStore
          (exPost 9 (str "10.0.0.5") exKeyA)).1.body =
        (httpHandleReplaceIP exVerify (exEnv 500 []) exStore
          (exPost 1 (str "10.0.0.5") exKeyB)).1.body) := by
  decide

/-- An instance of claim C6 as the handler has it, on the same two requests. -/
theorem unknown_user_and_bad_signature_answers_witness :
    (httpHandleReplaceIP exVerify (exEnv 500 []) exStore
      (exPost 9 (str "10.0.0.5") exKeyA)).1 = .error "user not found" 403 ∧
    (httpHandleReplaceIP exVerify (exEnv 500 []) exStore
      (exPost 1 (str "10.0.0.5") exKeyB)).1 = .error "signature fail" 403 :=
  have h := unknown_user_and_bad_signature_answers exVerify (exEnv 500 []) (exEnv 500 [])
    exStore exStore (exPost 9 (str "10.0.0.5") exKeyA) (exPost 1 (str "10.0.0.5") exKeyB)
    ⟨9, str "10.0.0.5", exKeyA⟩ ⟨1, str "10.0.0.5", exKeyB⟩ ⟨List.replicate 32 0, 1000⟩
    ⟨List.replicate 32 0, 1000⟩ (List.replicate 32 0) (List.replicate 32 1)
    (List.replicate 32 2) rfl rfl (by decide) (by decide) rfl (by decide) (by decide)
    (by decide) rfl rfl (by decide) (by decide) rfl (by decide) (by decide) (by decide)
    (by decide) (by decide)
  ⟨h.1, h.2.1⟩

/-- An instance of claim C9: the private address of the stored relay `10.0.0.1`, written
`::ffff:10.0.0.1`. -/
theorem AddServer_conflict_witness :
    (AddServer none exServers (str "relay-c") (str "203.0.113.9") 51820
      (str "::ffff:10.0.0.1") exKeyC exKeyC).id = -7 ∧
    (AddServer none exServers (str "relay-c") (str "203.0.113.9") 51820
      (str "::ffff:10.0.0.1") exKeyC exKeyC).table = exServers :=
  have h := AddServer_conflict none exServers (str "relay-c") (str "203.0.113.9") 51820
    (str "::ffff:10.0.0.1") exKeyC exKeyC (v4InV6Prefix ++ [10, 0, 0, 1])
    ⟨List.replicate 32 2, by decide, by decide⟩ ⟨List.replicate 32 2, by decide, by decide⟩
    (by decide) (by decide) (by decide) (by decide)
    ⟨⟨1, str "relay-a", v4InV6Prefix ++ [203, 0, 113, 1], 51820, v4InV6Prefix ++ [10, 0, 0, 1],
      List.replicate 32 0, List.replicate 32 0⟩, by decide, by decide⟩
  ⟨h.1, h.2.2.1⟩


/-! ## The relay query and stored addresses -/

/-- The decimal text of an octet has at most three digits. -/
theorem ubtoa_length_le (v : Nat) : (ubtoa v).length ≤ 3 := by
  unfold ubtoa
  split
  · simp
  · split <;> simp

/-- The dotted text of a 4-byte address has at most 15 bytes. -/
theorem String4_length_le (ip : Bytes) : (String4 ip).length ≤ 15 := by
  unfold String4
  split
  · rename_i a b c d
    have ha := ubtoa_length_le a
    have hb := ubtoa_length_le b
    have hc := ubtoa_length_le c
    have hd := ubtoa_length_le d
    simp only [List.length_append, List.length_singleton]
    omega
  · simp

/-- Whatever the IPv4 address of the interface, the relay query returns every row whose
private address is stored in 16-byte form, the row of the local relay included: the
text of the address is never equal to 16 stored bytes. -/
theorem peer_server_SQL_keeps_stored_rows (servers : List ServerRow) (v4 : Bytes)
    (h16 : ∀ row ∈ servers, row.server_privip.length = 16) :
    peer_server_SQL servers (String4 v4) = servers := by
  unfold peer_server_SQL
  rw [List.filter_eq_self]
  intro row hrow
  have hlen := String4_length_le v4
  have hne : row.server_privip ≠ String4 v4 := by
    intro h
    rw [← h, h16 row hrow] at hlen
    omega
  simpa using hne


/-! ## Claim C11: the user query and the local /24 -/

/-- A test that accepts the empty text accepts some suffix of every text. -/
theorem likeSuffix_nil (f : Bytes → Bool) (hf : f [] = true) (t : Bytes) :
    likeSuffix f t = true := by
  induction t with
  | nil => exact hf
  | cons c t ih => simp [likeSuffix, ih]

/-- A pattern made of a text without `%`, `_` and backslash followed by `%` matches
exactly the texts that begin with it. -/
theorem like_literal_percent (p : Bytes) (hp : ∀ c ∈ p, c ≠ 37 ∧ c ≠ 95 ∧ c ≠ 92) :
    ∀ t : Bytes, like (p ++ [37]) t = true ↔ p <+: t := by
  induction p with
  | nil =>
    intro t
    have : like ([] ++ [37]) t = likeSuffix (like []) t := by
      show like [37] t = _
      unfold like
      rfl
    rw [this, likeSuffix_nil _ (by unfold like; rfl)]
    simp
  | cons c p ih =>
    intro t
    obtain ⟨h1, h2, h3⟩ := hp c (List.mem_cons_self _ _)
    have ih2 := ih (fun x hx => hp x (List.mem_cons_of_mem _ hx))
    cases t with
    | nil =>
      have : like (c :: (p ++ [37])) [] = false := by
        unfold like
        split <;> simp_all
      rw [List.cons_append, this]
      simp
    | cons d t =>
      have : like (c :: (p ++ [37])) (d :: t) = (decide (c = d) && like (p ++ [37]) t) := by
        conv => lhs; unfold like
        split <;> simp_all
      rw [List.cons_append, this, List.cons_prefix_cons, Bool.and_eq_true, ih2 t]
      simp

/-- No separator in a text: `strings.LastIndex` gives -1. -/
theorem LastIndex_absent (s : Bytes) (c : Nat) (h : c ∉ s) : LastIndex s c = -1 := by
  induction s with
  | nil => rfl
  | cons x xs ih =>
    have hx : x ≠ c := fun e => h (e ▸ List.mem_cons_self _ _)
    have ih2 := ih (fun hm => h (List.mem_cons_of_mem _ hm))
    unfold LastIndex
    rw [ih2]
    simp [hx]

/-- The last separator of a text that has none after it. -/
theorem LastIndex_last (xs ds : Bytes) (c : Nat) (h : c ∉ ds) :
    LastIndex (xs ++ c :: ds) c = xs.length := by
  induction xs with
  | nil =>
    show LastIndex (c :: ds) c = 0
    unfold LastIndex
    rw [LastIndex_absent ds c h]
    simp
  | cons x xs ih =>
    show LastIndex (x :: (xs ++ c :: ds)) c = _
    unfold LastIndex
    rw [ih]
    have : ¬ ((xs.length : Int) < 0) := by omega
    rw [if_neg this]
    simp

/-- The digits of an octet are decimal digits. -/
theorem ubtoa_digits (v : Nat) (hv : v < 256) : ∀ x ∈ ubtoa v, 48 ≤ x ∧ x ≤ 57 := by
  intro x hx
  unfold ubtoa at hx
  split at hx
  · simp at hx; omega
  · split at hx
    · simp at hx; omega
    · simp at hx; omega

/-- The pattern of the user query for the local address `a.b.c.d`. -/
theorem userPattern_String4 (a b c d : Nat) (hd : d < 256) :
    userPattern (String4 [a, b, c, d]) =
      (ubtoa a ++ 46 :: (ubtoa b ++ 46 :: (ubtoa c ++ [46]))) ++ [37] := by
  have hno : 46 ∉ ubtoa d := fun h => by
    have := ubtoa_digits d hd 46 h
    omega
  have e : String4 [a, b, c, d] =
      (ubtoa a ++ 46 :: (ubtoa b ++ 46 :: ubtoa c)) ++ 46 :: ubtoa d := by
    simp [String4]
  unfold userPattern
  rw [e, LastIndex_last _ _ _ hno]
  have h1 : ((((ubtoa a ++ 46 :: (ubtoa b ++ 46 :: ubtoa c)).length : Int) + 1).toNat) =
      (ubtoa a ++ 46 :: (ubtoa b ++ 46 :: ubtoa c)).length + 1 := by omega
  have h2 : (ubtoa a ++ 46 :: (ubtoa b ++ 46 :: ubtoa c)) ++ 46 :: ubtoa d =
      ((ubtoa a ++ 46 :: (ubtoa b ++ 46 :: ubtoa c)) ++ [46]) ++ ubtoa d := by simp
  rw [h1, h2, List.take_left' (by simp; omega)]
  simp

/-- One step of the loop of `parseIPv4` on a digit. -/
theorem parseIPv4Loop_digit (c : Nat) (rest : Bytes) (first prevDot : Bool) (fields : List Nat)
    (val digLen : Nat) (hc : 48 ≤ c ∧ c ≤ 57) (hz : ¬ (digLen = 1 ∧ val = 0))
    (hv : val * 10 + (c - 48) ≤ 255) :
    parseIPv4Loop (c :: rest) first prevDot fields val digLen =
      parseIPv4Loop rest false false fields (val * 10 + (c - 48)) (digLen + 1) := by
  conv => lhs; unfold parseIPv4Loop
  rw [if_pos hc, if_neg hz, if_neg (by omega)]

/-- One step of the loop of `parseIPv4` on a dot that ends an octet. -/
theorem parseIPv4Loop_dot (rest : Bytes) (fields : List Nat) (val digLen : Nat)
    (hrest : rest ≠ []) (hf : fields.length ≠ 3) :
    parseIPv4Loop (46 :: rest) false false fields val digLen =
      parseIPv4Loop rest false true (fields ++ [val]) 0 0 := by
  conv => lhs; unfold parseIPv4Loop
  have hne : rest.isEmpty = false := by
    cases rest with
    | nil => exact absurd rfl hrest
    | cons _ _ => rfl
  rw [if_neg (by omega), if_pos rfl, if_neg (by simp [hne]), if_neg hf]

/-- The loop of `parseIPv4` reads the decimal text of an octet back as that octet. -/
theorem parseIPv4Loop_ubtoa (v : Nat) (hv : v < 256) (rest : Bytes) (first prevDot : Bool)
    (fields : List Nat) :
    parseIPv4Loop (ubtoa v ++ rest) first prevDot fields 0 0 =
      parseIPv4Loop rest false false fields v (ubtoa v).length := by
  unfold ubtoa
  split
  · show parseIPv4Loop ((v + 48) :: rest) first prevDot fields 0 0 = _
    rw [parseIPv4Loop_digit _ _ _ _ _ _ _ (by omega) (by omega) (by omega)]
    have : 0 * 10 + (v + 48 - 48) = v := by omega
    rw [this]
    rfl
  · split
    · show parseIPv4Loop ((v / 10 + 48) :: (v % 10 + 48) :: rest) first prevDot fields 0 0 = _
      rw [parseIPv4Loop_digit _ _ _ _ _ _ _ (by omega) (by omega) (by omega),
        parseIPv4Loop_digit _ _ _ _ _ _ _ (by omega) (by omega) (by omega)]
      have : (0 * 10 + (v / 10 + 48 - 48)) * 10 + (v % 10 + 48 - 48) = v := by omega
      rw [this]
      rfl
    · show parseIPv4Loop ((v / 100 + 48) :: (v / 10 % 10 + 48) :: (v % 10 + 48) :: rest)
        first prevDot fields 0 0 = _
      rw [parseIPv4Loop_digit _ _ _ _ _ _ _ (by omega) (by omega) (by omega),
        parseIPv4Loop_digit _ _ _ _ _ _ _ (by omega) (by omega) (by omega),
        parseIPv4Loop_digit _ _ _ _ _ _ _ (by omega) (by omega) (by omega)]
      have : ((0 * 10 + (v / 100 + 48 - 48)) * 10 + (v / 10 % 10 + 48 - 48)) * 10 +
          (v % 10 + 48 - 48) = v := by omega
      rw [this]
      rfl

/-- What the loop of `parseIPv4` returns: four octets below 256 that begin with the
octets read before. -/
theorem parseIPv4Loop_result (s : Bytes) :
    ∀ (first prevDot : Bool) (fields : List Nat) (val digLen : Nat) (r : Bytes),
      parseIPv4Loop s first prevDot fields val digLen = some r →
      fields.length ≤ 3 → (∀ x ∈ fields, x ≤ 255) → val ≤ 255 →
      r.length = 4 ∧ fields <+: r ∧ ∀ x ∈ r, x ≤ 255 := by
  induction s with
  | nil =>
    intro first prevDot fields val digLen r h hlen hb hv
    unfold parseIPv4Loop at h
    split at h
    · cases h
    · cases h
      refine ⟨by simp; omega, List.prefix_append _ _, ?_⟩
      intro x hx
      rcases List.mem_append.mp hx with hx | hx
      · exact hb x hx
      · simp at hx; omega
  | cons c rest ih =>
    intro first prevDot fields val digLen r h hlen hb hv
    unfold parseIPv4Loop at h
    split at h
    · split at h
      · cases h
      · split at h
        · cases h
        · exact ih _ _ _ _ _ r h hlen hb (by omega)
    · split at h
      · split at h
        · cases h
        · split at h
          · cases h
          · rename_i hf
            obtain ⟨h1, h2, h3⟩ := ih _ _ _ _ _ r h (by simp; omega)
              (by
                intro x hx
                rcases List.mem_append.mp hx with hx | hx
                · exact hb x hx
                · simp at hx; omega)
              (by omega)
            exact ⟨h1, (List.prefix_append _ _).trans h2, h3⟩
      · cases h

/-- The dotted text of a list of octets that ends in `x`. -/
theorem dotted_append_singleton (fields : List Nat) (x : Nat) :
    dotted (fields ++ [x]) = dotsAfter fields ++ ubtoa x := by
  induction fields with
  | nil => rfl
  | cons f fs ih =>
    have : dotted (f :: (fs ++ [x])) = ubtoa f ++ 46 :: dotted (fs ++ [x]) := by
      cases fs <;> rfl
    rw [List.cons_append, this, ih]
    simp [dotsAfter]

/-- The dotted text of four octets is what `IP.String` writes. -/
theorem dotted_four (a b c d : Nat) : dotted [a, b, c, d] = String4 [a, b, c, d] := by
  simp [dotted, String4]

/-- Appending a digit to the decimal text of a non-zero number. -/
theorem ubtoa_snoc (val k : Nat) (h0 : 0 < val) (hk : k ≤ 9) (h : val * 10 + k ≤ 255) :
    ubtoa (val * 10 + k) = ubtoa val ++ [k + 48] := by
  unfold ubtoa
  by_cases h1 : val < 10
  · rw [if_neg (by omega), if_pos (by omega), if_pos h1]
    have e1 : (val * 10 + k) / 10 = val := by omega
    have e2 : (val * 10 + k) % 10 = k := by omega
    rw [e1, e2]
    rfl
  · rw [if_neg (by omega), if_neg (by omega), if_neg h1, if_pos (by omega)]
    have e1 : (val * 10 + k) / 100 = val / 10 := by omega
    have e2 : (val * 10 + k) / 10 % 10 = val % 10 := by omega
    have e3 : (val * 10 + k) % 10 = k := by omega
    rw [e1, e2, e3]
    rfl

/-- The loop of `parseIPv4` accepts only the dotted text of the octets it returns:
`cur` is the text of the octet being read. -/
theorem parseIPv4Loop_text (s : Bytes) :
    ∀ (first prevDot : Bool) (fields : List Nat) (val digLen : Nat) (cur r : Bytes),
      parseIPv4Loop s first prevDot fields val digLen = some r →
      (digLen = 0 → val = 0 ∧ cur = [] ∧ (first = true ∨ prevDot = true) ∧
        (s = [] → fields.length < 3)) →
      (0 < digLen → cur = ubtoa val ∧ val ≤ 255 ∧ digLen = cur.length) →
      dotsAfter fields ++ cur ++ s = dotted r := by
  induction s with
  | nil =>
    intro first prevDot fields val digLen cur r h h0 h1
    unfold parseIPv4Loop at h
    split at h
    · cases h
    · rename_i hlen
      cases h
      have hd : 0 < digLen := by
        rcases Nat.eq_zero_or_pos digLen with hz | hp
        · exact absurd ((h0 hz).2.2.2 rfl) hlen
        · exact hp
      rw [(h1 hd).1, dotted_append_singleton]
      simp
  | cons c rest ih =>
    intro first prevDot fields val digLen cur r h h0 h1
    unfold parseIPv4Loop at h
    split at h
    · rename_i hc
      split at h
      · cases h
      · rename_i hz
        split at h
        · cases h
        · rename_i hv
          have key : cur ++ [c] = ubtoa (val * 10 + (c - 48)) := by
            rcases Nat.eq_zero_or_pos digLen with hd | hd
            · obtain ⟨hv0, hcur, _, _⟩ := h0 hd
              rw [hv0, hcur]
              unfold ubtoa
              rw [if_pos (by omega)]
              have : 0 * 10 + (c - 48) + 48 = c := by omega
              rw [this]
              rfl
            · obtain ⟨hcur, _, hlen⟩ := h1 hd
              have hval : 0 < val := by
                rcases Nat.eq_zero_or_pos val with hv0 | hp
                · exfalso
                  apply hz
                  refine ⟨?_, hv0⟩
                  rw [hlen, hcur, hv0]
                  rfl
                · exact hp
              rw [ubtoa_snoc val (c - 48) hval (by omega) (by omega), hcur]
              have : c - 48 + 48 = c := by omega
              rw [this]
          have := ih false false fields (val * 10 + (c - 48)) (digLen + 1) (cur ++ [c]) r h
            (by omega)
            (fun _ => ⟨key, by omega, by
              rcases Nat.eq_zero_or_pos digLen with hd | hd
              · rw [(h0 hd).2.1, hd]; rfl
              · rw [(h1 hd).2.2]; simp⟩)
          rw [← this]
          simp
    · split at h
      · rename_i hdot
        split at h
        · cases h
        · rename_i hchk
          split at h
          · cases h
          · have hd : 0 < digLen := by
              rcases Nat.eq_zero_or_pos digLen with hz | hp
              · exfalso
                apply hchk
                rcases (h0 hz).2.2.1 with hf | hp
                · exact Or.inl hf
                · exact Or.inr (Or.inr hp)
              · exact hp
            have hne : rest ≠ [] := by
              intro hr
              apply hchk
              right; left
              rw [hr]
              rfl
            have := ih false true (fields ++ [val]) 0 0 [] r h
              (fun _ => ⟨rfl, rfl, Or.inr rfl, fun hr => absurd hr hne⟩)
              (fun hlt => absurd hlt (by omega))
            rw [← this, (h1 hd).1, hdot]
            simp [dotsAfter]
      · cases h

/-- The parser `parseIPv4` accepts exactly the text that `IP.String` writes for the four
octets it returns, and these are below 256. -/
theorem parseIPv4_text (t r : Bytes) (h : parseIPv4 t = some r) :
    ∃ a b c d, r = [a, b, c, d] ∧ t = String4 [a, b, c, d] ∧
      a < 256 ∧ b < 256 ∧ c < 256 ∧ d < 256 := by
  unfold parseIPv4 at h
  obtain ⟨hlen, _, hb⟩ := parseIPv4Loop_result t true false [] 0 0 r h (by simp) (by simp)
    (by omega)
  have htext := parseIPv4Loop_text t true false [] 0 0 [] r h
    (fun _ => ⟨rfl, rfl, Or.inl rfl, fun _ => by simp⟩) (fun hlt => absurd hlt (by omega))
  match r, hlen with
  | [a, b, c, d], _ =>
    refine ⟨a, b, c, d, rfl, ?_, ?_, ?_, ?_, ?_⟩
    · rw [← dotted_four, ← htext]
      simp [dotsAfter]
    · have := hb a (by simp); omega
    · have := hb b (by simp); omega
    · have := hb c (by simp); omega
    · have := hb d (by simp); omega

/-- The decimal text of an octet is not empty. -/
theorem ubtoa_ne_nil (v : Nat) : ubtoa v ≠ [] := by
  unfold ubtoa
  split
  · simp
  · split <;> simp

/-- A text without colon that parses as an IP literal is parsed by `parseIPv4`. -/
theorem ParseIP_dotted (t ip : Bytes) (hcolon : 58 ∉ t) (h : ParseIP t = some ip) :
    ∃ r, parseIPv4 t = some r ∧ ip = v4InV6Prefix ++ r := by
  unfold ParseIP at h
  split at h
  · cases h
  · rename_i c hfind
    by_cases h46 : c = 46
    · rw [if_pos h46] at h
      obtain ⟨r, hr, hip⟩ := Option.map_eq_some'.mp h
      exact ⟨r, hr, hip.symm⟩
    · rw [if_neg h46] at h
      by_cases h58 : c = 58
      · exact absurd (h58 ▸ List.mem_of_find?_eq_some hfind) hcolon
      · rw [if_neg h58] at h
        cases h

/-- A text that begins with the decimal text of an octet and a dot is handed to
`parseIPv4`. -/
theorem ParseIP_of_octet_dot (a : Nat) (ha : a < 256) (rest : Bytes) :
    ParseIP (ubtoa a ++ 46 :: rest) =
      (parseIPv4 (ubtoa a ++ 46 :: rest)).map fun f => v4InV6Prefix ++ f := by
  have hfind : (ubtoa a ++ 46 :: rest).find? (fun c => c = 46 ∨ c = 58 ∨ c = 37) = some 46 := by
    rw [List.find?_append]
    have : (ubtoa a).find? (fun c => decide (c = 46 ∨ c = 58 ∨ c = 37)) = none := by
      rw [List.find?_eq_none]
      intro x hx
      have := ubtoa_digits a ha x hx
      simp
      omega
    rw [this]
    simp
  unfold ParseIP
  rw [hfind]
  simp

/-- The parser on a text that begins with three octets, each followed by a dot. -/
theorem parseIPv4_three_octets (a b c : Nat) (ha : a < 256) (hb : b < 256) (hc : c < 256)
    (rest : Bytes) (hrest : rest ≠ []) :
    parseIPv4 (ubtoa a ++ 46 :: (ubtoa b ++ 46 :: (ubtoa c ++ 46 :: rest))) =
      parseIPv4Loop rest false true [a, b, c] 0 0 := by
  unfold parseIPv4
  rw [parseIPv4Loop_ubtoa a ha, parseIPv4Loop_dot _ _ _ _ (by simp [ubtoa_ne_nil]) (by simp)]
  show parseIPv4Loop (ubtoa b ++ 46 :: (ubtoa c ++ 46 :: rest)) false true [a] 0 0 = _
  rw [parseIPv4Loop_ubtoa b hb, parseIPv4Loop_dot _ _ _ _ (by simp [ubtoa_ne_nil]) (by simp)]
  show parseIPv4Loop (ubtoa c ++ 46 :: rest) false true [a, b] 0 0 = _
  rw [parseIPv4Loop_ubtoa c hc, parseIPv4Loop_dot _ _ _ _ hrest (by simp)]
  rfl

/-- The mask of a `/24`. -/
theorem CIDRMask_24 : CIDRMask 24 32 = [255, 255, 255, 0] := by decide

/-- Membership of an IPv4 address, in 16-byte form, in the `/24` of `a.b.c.d`. -/
theorem slash24_Contains (a b c d f0 f1 f2 f3 : Nat) (ha : a < 256) (hb : b < 256)
    (hc : c < 256) (h0 : f0 < 256) (h1 : f1 < 256) (h2 : f2 < 256) :
    (slash24 [a, b, c, d]).Contains (v4InV6Prefix ++ [f0, f1, f2, f3]) = true ↔
      f0 = a ∧ f1 = b ∧ f2 = c := by
  have h255 : ∀ x, x < 256 → x &&& 255 = x := fun x hx =>
    Nat.and_pow_two_sub_one_of_lt_two_pow (n := 8) hx
  have hto4 : To4 (v4InV6Prefix ++ [f0, f1, f2, f3]) = some [f0, f1, f2, f3] := by
    simp [To4, v4InV6Prefix]
  unfold IPNet.Contains slash24
  simp only [hto4, CIDRMask_24, Option.getD_some]
  simp [h255 a ha, h255 b hb, h255 c hc, h255 f0 h0, h255 f1 h1, h255 f2 h2]
  constructor
  · rintro ⟨e1, e2, e3⟩; exact ⟨e1.symm, e2.symm, e3.symm⟩
  · rintro ⟨e1, e2, e3⟩; exact ⟨e1.symm, e2.symm, e3.symm⟩

/-- Claim C11, as the query has it.  For the local IPv4 address `a.b.c.d` and a user row
whose latest address is a valid IP literal, the user query of `UpdateConnection`
selects the row exactly when the address is written in dotted-decimal form (without
colon) and lies within the `/24` of the local address. -/
theorem user_query_selects_dotted_slash24 (a b c d : Nat) (ha : a < 256) (hb : b < 256)
    (hc : c < 256) (hd : d < 256) (users : List UserRow) (row : UserRow) (ip : Bytes)
    (hrow : row ∈ users) (hip : ParseIP row.latest_ip = some ip) :
    row ∈ peer_user_SQL users (userPattern (String4 [a, b, c, d])) ↔
      (58 ∉ row.latest_ip ∧ (slash24 [a, b, c, d]).Contains ip = true) := by
  have hpat : ∀ x ∈ ubtoa a ++ 46 :: (ubtoa b ++ 46 :: (ubtoa c ++ [46])),
      x ≠ 37 ∧ x ≠ 95 ∧ x ≠ 92 := by
    intro x hx
    have hx2 : x ∈ ubtoa a ∨ x = 46 ∨ x ∈ ubtoa b ∨ x ∈ ubtoa c := by
      simp at hx
      tauto
    rcases hx2 with h | h | h | h
    · have := ubtoa_digits a ha x h; omega
    · omega
    · have := ubtoa_digits b hb x h; omega
    · have := ubtoa_digits c hc x h; omega
  have hsel : row ∈ peer_user_SQL users (userPattern (String4 [a, b, c, d])) ↔
      (ubtoa a ++ 46 :: (ubtoa b ++ 46 :: (ubtoa c ++ [46]))) <+: row.latest_ip := by
    unfold peer_user_SQL
    rw [List.mem_filter, userPattern_String4 a b c d hd, like_literal_percent _ hpat]
    exact ⟨fun h => h.2, fun h => ⟨hrow, h⟩⟩
  rw [hsel]
  constructor
  · rintro ⟨rest, hrest⟩
    have htext : row.latest_ip = ubtoa a ++ 46 :: (ubtoa b ++ 46 :: (ubtoa c ++ 46 :: rest)) := by
      rw [← hrest]; simp
    rw [htext, ParseIP_of_octet_dot a ha] at hip
    obtain ⟨r, hr, hipr⟩ := Option.map_eq_some'.mp hip
    have hne : rest ≠ [] := by
      intro h0
      rw [h0] at hr
      unfold parseIPv4 at hr
      rw [parseIPv4Loop_ubtoa a ha, parseIPv4Loop_dot _ _ _ _ (by simp [ubtoa_ne_nil]) (by simp)]
        at hr
      change parseIPv4Loop (ubtoa b ++ 46 :: (ubtoa c ++ [46])) false true [a] 0 0 = _ at hr
      rw [parseIPv4Loop_ubtoa b hb, parseIPv4Loop_dot _ _ _ _ (by simp [ubtoa_ne_nil]) (by simp)]
        at hr
      change parseIPv4Loop (ubtoa c ++ [46]) false true [a, b] 0 0 = _ at hr
      rw [parseIPv4Loop_ubtoa c hc] at hr
      unfold parseIPv4Loop at hr
      simp at hr
    obtain ⟨f0, f1, f2, f3, hr4, ht4, hf0, hf1, hf2, hf3⟩ := parseIPv4_text _ r hr
    rw [parseIPv4_three_octets a b c ha hb hc rest hne] at hr
    obtain ⟨_, hpre, _⟩ := parseIPv4Loop_result rest false true [a, b, c] 0 0 r hr (by simp)
      (by intro x hx; simp at hx; omega) (by omega)
    rw [hr4] at hpre
    have heq : f0 = a ∧ f1 = b ∧ f2 = c := by
      obtain ⟨tail, ht⟩ := hpre
      simp at ht
      exact ⟨ht.1.symm, ht.2.1.symm, ht.2.2.1.symm⟩
    refine ⟨?_, ?_⟩
    · rw [htext, ht4]
      intro hmem
      have hm2 : 58 ∈ ubtoa f0 ∨ 58 ∈ ubtoa f1 ∨ 58 ∈ ubtoa f2 ∨ 58 ∈ ubtoa f3 := by
        simp [String4] at hmem
        tauto
      rcases hm2 with h | h | h | h
      · have := ubtoa_digits f0 hf0 58 h; omega
      · have := ubtoa_digits f1 hf1 58 h; omega
      · have := ubtoa_digits f2 hf2 58 h; omega
      · have := ubtoa_digits f3 hf3 58 h; omega
    · rw [← hipr, hr4, slash24_Contains a b c d f0 f1 f2 f3 ha hb hc hf0 hf1 hf2]
      exact heq
  · rintro ⟨hcolon, hcont⟩
    obtain ⟨r, hr, hipr⟩ := ParseIP_dotted _ _ hcolon hip
    obtain ⟨f0, f1, f2, f3, hr4, ht4, hf0, hf1, hf2, hf3⟩ := parseIPv4_text _ r hr
    rw [hipr, hr4, slash24_Contains a b c d f0 f1 f2 f3 ha hb hc hf0 hf1 hf2] at hcont
    obtain ⟨e0, e1, e2⟩ := hcont
    rw [ht4, e0, e1, e2]
    exact ⟨ubtoa f3, by simp [String4]⟩

/-- Claim C11 as stated fails on the code: on the relay `10.0.0.1`, the user whose latest
address is written `::ffff:10.0.0.5` has a valid IP literal that lies within the local
`/24`, and the user query does not select the row. -/
theorem mapped_address_in_slash24_not_selected :
    ParseIP exMappedUser.latest_ip = some (v4InV6Prefix ++ [10, 0, 0, 5]) ∧
    ¬ (exMappedUser ∈ peer_user_SQL [exMappedUser] (userPattern (String4 [10, 0, 0, 1])) ↔
      (slash24 [10, 0, 0, 1]).Contains (v4InV6Prefix ++ [10, 0, 0, 5]) = true) := by
  decide

/-- An instance of claim C11 as the query has it: the user `10.0.0.5` of `exUserTable` on
the relay `10.0.0.1`. -/
theorem user_query_selects_dotted_slash24_witness :
    (⟨1, str "alice", str "Alice", List.replicate 32 2, str "10.0.0.5"⟩ : UserRow) ∈
        peer_user_SQL exUserTable.rows (userPattern (String4 [10, 0, 0, 1])) ↔
      (58 ∉ str "10.0.0.5" ∧
        (slash24 [10, 0, 0, 1]).Contains (v4InV6Prefix ++ [10, 0, 0, 5]) = true) :=
  user_query_selects_dotted_slash24 10 0 0 1 (by decide) (by decide) (by decide) (by decide)
    exUserTable.rows ⟨1, str "alice", str "Alice", List.replicate 32 2, str "10.0.0.5"⟩
    (v4InV6Prefix ++ [10, 0, 0, 5]) (by decide) (by decide)


/-! ## Claim C12: the peer set of a pass -/

/-- A `filterMap` that skips nothing is a `map`. -/
theorem filterMap_eq_map_of_some {α β : Type} (f : α → Option β) (g : α → β) (l : List α)
    (h : ∀ x ∈ l, f x = some (g x)) : l.filterMap f = l.map g := by
  induction l with
  | nil => rfl
  | cons x xs ih =>
    rw [List.filterMap_cons, h x (List.mem_cons_self _ _), List.map_cons,
      ih (fun y hy => h y (List.mem_cons_of_mem _ hy))]

/-- The first loop on a row with two 32-byte keys. -/
theorem serverPeer_wellFormed (row : ServerRow) (h1 : row.server_pubkey.length = 32)
    (h2 : row.server_presharedkey.length = 32) : serverPeer row = some (relayEntry row) := by
  unfold serverPeer NewKey KeyLen
  rw [if_pos h1, if_pos h2]
  rfl

/-- The second loop on a row with a 32-byte key. -/
theorem userPeer_wellFormed (row : UserRow) (h1 : row.user_pubkey.length = 32) :
    userPeer row = some (userEntry row) := by
  unfold userPeer NewKey KeyLen
  rw [if_pos h1]
  rfl

/-- What the two loops build.  In a pass that reaches `ConfigureDevice`, with every
returned row read and carrying 32-byte keys, the peer set handed over has exactly one
entry per returned relay row followed by one per returned user row, each built by
`relayEntry` or `userEntry`: the address bytes of a relay row and the result of
`net.ParseIP` for a user row are taken as they are, nil included, and the mask is the
4-byte `255.255.255.255` in every entry. -/
theorem applied_peer_set (env : SyncEnv) (servers : List ServerRow) (users : List UserRow)
    (dev : Device) (addrs : List Addr)
    (hnew : env.wgNewOk = true) (hdev : env.device = some dev)
    (hif : env.iface = some (some addrs)) (haddr : (localAddress [] addrs).length ≠ 0)
    (hsq : env.serverQuery = ⟨false, none⟩) (huq : env.userQuery = ⟨false, none⟩)
    (hS : ∀ row ∈ peer_server_SQL servers (localAddress [] addrs),
      row.server_pubkey.length = 32 ∧ row.server_presharedkey.length = 32)
    (hU : ∀ row ∈ peer_user_SQL users (userPattern (localAddress [] addrs)),
      row.user_pubkey.length = 32) :
    ∃ conf, (UpdateConnection env servers users).configured = some conf ∧
      conf.ReplacePeers = true ∧
      conf.Peers =
        (peer_server_SQL servers (localAddress [] addrs)).map relayEntry ++
        (peer_user_SQL users (userPattern (localAddress [] addrs))).map userEntry ∧
      conf.Peers.length =
        (peer_server_SQL servers (localAddress [] addrs)).length +
        (peer_user_SQL users (userPattern (localAddress [] addrs))).length := by
  have e1 := filterMap_eq_map_of_some serverPeer relayEntry _
    (fun row hrow => serverPeer_wellFormed row (hS row hrow).1 (hS row hrow).2)
  have e2 := filterMap_eq_map_of_some userPeer userEntry _
    (fun row hrow => userPeer_wellFormed row (hU row hrow))
  unfold userPattern at e2
  unfold UpdateConnection
  rw [hnew, hdev, hif, hsq, huq]
  simp only [Bool.not_true, Bool.false_eq_true, if_false, delivered]
  rw [if_neg haddr, e1, e2]
  split
  · exact ⟨_, rfl, rfl, rfl, by simp [userPattern]⟩
  · exact ⟨_, rfl, rfl, rfl, by simp [userPattern]⟩

/-- Claim C12 fails on the code.  For the well-formed relay row with the IPv6 private
address `fd00::1`, the entry that `UpdateConnection` hands to `ConfigureDevice` carries
the 4-byte mask of a `/32`, not the 16-byte mask of a `/128`, whether the device then
accepts the configuration or not; for the same address `setupWG0Linux` and
`setupWG0LinuxClient` build the `/128`. -/
theorem relay_entry_mask_is_not_slash128 :
    ((UpdateConnection exSyncEnv [exRelayV6] []).configured.map fun c =>
      c.Peers.map fun p => p.AllowedIPs) =
      some [[{ IP := some exRelayV6.server_privip, Mask := CIDRMask 32 32 }]] ∧
    ((UpdateConnection { exSyncEnv with configureOk := false } [exRelayV6] []).configured.map
      fun c => c.Peers.map fun p => p.AllowedIPs) =
      some [[{ IP := some exRelayV6.server_privip, Mask := CIDRMask 32 32 }]] ∧
    ¬ (((UpdateConnection exSyncEnv [exRelayV6] []).configured.map fun c =>
      c.Peers.map fun p => p.AllowedIPs) =
      some [[{ IP := some exRelayV6.server_privip, Mask := CIDRMask 128 128 }]]) ∧
    (setupWG0Linux ⟨true, true, true, true, .ok⟩ (str "fd00::1") 0).ops.take 2 =
      [.linkByName,
        .addrAdd { IP := some exRelayV6.server_privip, Mask := CIDRMask 128 128 }] ∧
    (setupWG0LinuxClient ⟨true, true, true, true, .ok⟩ (str "fd00::1") 0).ops.take 2 =
      [.linkByName,
        .addrAdd { IP := some exRelayV6.server_privip, Mask := CIDRMask 128 128 }] := by
  decide

/-- An instance of `applied_peer_set`: the pass of `exSyncEnv` on the registry of
`exServers` and `exUserTable`. -/
theorem applied_peer_set_witness :
    ∃ conf, (UpdateConnection exSyncEnv exServers.rows exUserTable.rows).configured =
        some conf ∧
      conf.ReplacePeers = true ∧
      conf.Peers =
        (peer_server_SQL exServers.rows (str "10.0.0.1")).map relayEntry ++
        (peer_user_SQL exUserTable.rows (userPattern (str "10.0.0.1"))).map userEntry ∧
      conf.Peers.length =
        (peer_server_SQL exServers.rows (str "10.0.0.1")).length +
        (peer_user_SQL exUserTable.rows (userPattern (str "10.0.0.1"))).length :=
  applied_peer_set exSyncEnv exServers.rows exUserTable.rows ⟨List.replicate 32 7, 51820, 0⟩
    [.ipnet [10, 0, 0, 1] [255, 255, 255, 255]] rfl rfl rfl (by decide) rfl rfl
    (by decide) (by decide)


/-! ## Claims C13 and C14: malformed rows and failing queries -/

/-- Claim C13 fails on the code.  On the relay `10.0.0.1`, the relay row whose private
address has 5 bytes and the user row whose latest address `10.0.0.999` is not an IP
literal (a row that `AddUser` stores as it is) are both returned by the queries and both
contribute an entry to the applied peer set: the first loop only tests the slices
against nil, the second never looks at the result of `net.ParseIP`. -/
theorem malformed_ip_rows_are_applied :
    (AddUser none ⟨[], 3⟩ (str "dave") (str "Dave") exKeyB (str "10.0.0.999")).table.rows =
      [exUserBadIP] ∧
    ParseIP exUserBadIP.latest_ip = none ∧
    ((UpdateConnection exSyncEnv [exRelayBadIP] [exUserBadIP]).configured.map fun c =>
      c.Peers.map fun p => (p.PublicKey, p.AllowedIPs)) =
      some [(exRelayBadIP.server_pubkey, [{ IP := some [10, 0, 1, 1, 7], Mask := CIDRMask 32 32 }]),
        (exUserBadIP.user_pubkey, [{ IP := none, Mask := CIDRMask 32 32 }])] := by
  decide

/-- Claim C14 fails on the code.  When reading the rows of the relay query fails before
the first row, `UpdateConnection` never consults `rows.Err`: on the registry of
`exServers` and `exUserTable` it returns no error and calls `ConfigureDevice` with
`ReplacePeers` set and a peer set that holds the user alone, both relays missing. -/
theorem read_failure_is_not_surfaced :
    (UpdateConnection exSyncEnvReadFails exServers.rows exUserTable.rows).err = none ∧
    ((UpdateConnection exSyncEnvReadFails exServers.rows exUserTable.rows).configured.map
      fun c => (c.ReplacePeers, c.Peers.map fun p => p.PublicKey)) =
      some (true, [List.replicate 32 2]) := by
  decide

/-- The part of claim C14 that holds: a query that fails when it is issued makes
`UpdateConnection` return an error without calling `ConfigureDevice`. -/
theorem query_issue_failure_aborts (env : SyncEnv) (servers : List ServerRow)
    (users : List UserRow)
    (h : env.serverQuery.issueFails = true ∨ env.userQuery.issueFails = true) :
    (UpdateConnection env servers users).err.isSome = true ∧
      (UpdateConnection env servers users).configured = none := by
  unfold UpdateConnection
  split
  · exact ⟨rfl, rfl⟩
  · cases env.device with
    | none => exact ⟨rfl, rfl⟩
    | some wg_dev =>
      cases env.iface with
      | none => exact ⟨rfl, rfl⟩
      | some o =>
        cases o with
        | none => exact ⟨rfl, rfl⟩
        | some addrs =>
          dsimp only
          split
          · exact ⟨rfl, rfl⟩
          · split
            · exact ⟨rfl, rfl⟩
            · rename_i hs
              split
              · exact ⟨rfl, rfl⟩
              · rename_i hu
                rcases h with h | h
                · exact absurd h hs
                · exact absurd h hu


/-! ## The length of a parsed address -/

/-- The loop of `parseIPv6` never writes more than 16 bytes. -/
theorem parseIPv6Loop_length (fuel : Nat) :
    ∀ (s ip : Bytes) (ellipsis : Option Nat) (out : Bytes × Option Nat × Bytes),
      parseIPv6Loop fuel s ip ellipsis = some out → ip.length % 2 = 0 → ip.length ≤ 16 →
      out.1.length ≤ 16 := by
  induction fuel with
  | zero =>
    intro s ip ellipsis out h _ hle
    unfold parseIPv6Loop at h
    cases h
    exact hle
  | succ fuel ih =>
    intro s ip ellipsis out h heven hle
    unfold parseIPv6Loop at h
    split at h
    · cases h
      exact hle
    · rename_i hlt
      split at h
      · cases h
      · split at h
        · cases h
        · split at h
          · split at h
            · cases h
            · split at h
              · cases h
              · rename_i hroom
                split at h
                · cases h
                · rename_i f hf
                  cases h
                  have := (parseIPv4Loop_result _ true false [] 0 0 f hf (by simp) (by simp)
                    (by omega)).1
                  simp only [List.length_append]
                  omega
          · split at h
            · cases h
              simp only [List.length_append, List.length_cons, List.length_nil]
              omega
            · split at h
              · cases h
              · split at h
                · cases h
                · split at h
                  · split at h
                    · cases h
                    · split at h
                      · cases h
                        simp only [List.length_append, List.length_cons, List.length_nil]
                        omega
                      · exact ih _ _ _ out h (by simp; omega) (by simp; omega)
                  · exact ih _ _ _ out h (by simp; omega) (by simp; omega)

/-- What `parseIPv6` makes of the state at loop exit has 16 bytes. -/
theorem finishIPv6_length (st : Bytes × Option Nat × Bytes) (r : Bytes)
    (h : finishIPv6 st = some r) (hle : st.1.length ≤ 16) : r.length = 16 := by
  obtain ⟨ip, ellipsis, s⟩ := st
  unfold finishIPv6 at h
  dsimp only at h hle
  split at h
  · cases h
  · split at h
    · split at h
      · cases h
      · cases h
        simp only [List.length_append, List.length_take, List.length_replicate,
          List.length_drop]
        omega
    · split at h
      · cases h
      · cases h
        omega

/-- The function `net.ParseIP` returns its address in 16-byte form. -/
theorem ParseIP_length (s ip : Bytes) (h : ParseIP s = some ip) : ip.length = 16 := by
  unfold ParseIP at h
  split at h
  · cases h
  · split at h
    · obtain ⟨f, hf, hip⟩ := Option.map_eq_some'.mp h
      have := (parseIPv4Loop_result _ true false [] 0 0 f hf (by simp) (by simp) (by omega)).1
      rw [← hip]
      simp [v4InV6Prefix, this]
    · split at h
      · split at h
        · cases h
        · unfold parseIPv6 at h
          split at h
          · split at h
            · cases h
              simp
            · obtain ⟨st, hst, hfin⟩ := Option.bind_eq_some.mp h
              exact finishIPv6_length st ip hfin
                (parseIPv6Loop_length 8 _ _ _ st hst (by simp) (by simp))
          · obtain ⟨st, hst, hfin⟩ := Option.bind_eq_some.mp h
            exact finishIPv6_length st ip hfin
              (parseIPv6Loop_length 8 _ _ _ st hst (by simp) (by simp))
      · cases h

/-! ## Claim C15: the gate of the server's address assignment -/

/-- The calls of `configureLink`: it always starts with `LinkByName`, sets no other MTU
than the one it is given, and sets that one when the three calls before succeed. -/
theorem configureLink_ops (env : LinkEnv) (ip_net : IPNet) (MTU : Int) :
    (configureLink env ip_net MTU).ops ≠ [] ∧
    (configureLink env ip_net MTU).ops.head? = some .linkByName ∧
    (∀ m, LinkOp.linkSetMTU m ∈ (configureLink env ip_net MTU).ops → m = MTU) ∧
    (env.linkByNameOk = true → env.addrAddOk = true → env.linkSetUpOk = true →
      LinkOp.linkSetMTU MTU ∈ (configureLink env ip_net MTU).ops) := by
  unfold configureLink
  cases env.linkByNameOk <;> cases env.addrAddOk <;> cases env.linkSetUpOk <;>
    cases env.linkSetMTUOk <;> cases env.routeAdd <;> simp

/-- The two branches of `setupWG0Linux` on a parsed address. -/
theorem setupWG0Linux_parsed (env : LinkEnv) (s ip : Bytes) (MTU : Int)
    (h : ParseIP s = some ip) :
    setupWG0Linux env s MTU =
      if ip.take 12 = v4InV6Prefix then
        if ip.getD 15 0 ≠ 1 then ⟨some (.new "IPv4 server_privip must end with .1"), []⟩
        else if (if MTU = 0 then 1500 else MTU) > 1700 ∨ (if MTU = 0 then 1500 else MTU) < 800
        then ⟨some (.new "the MTU is either too large or too small"), []⟩
        else configureLink env { IP := some (ip.drop 12), Mask := CIDRMask 32 32 }
          (if MTU = 0 then 1500 else MTU)
      else
        if ip.getD 14 0 * 256 + ip.getD 15 0 ≠ 1 then
          ⟨some (.new "IPv6 server_privip must end with …:1"), []⟩
        else if (if MTU = 0 then 1500 else MTU) > 1700 ∨ (if MTU = 0 then 1500 else MTU) < 800
        then ⟨some (.new "the MTU is either too large or too small"), []⟩
        else configureLink env { IP := some ip, Mask := CIDRMask 128 128 }
          (if MTU = 0 then 1500 else MTU) := by
  have hlen := ParseIP_length s ip h
  unfold setupWG0Linux
  rw [h]
  dsimp only
  by_cases hv4 : ip.take 12 = v4InV6Prefix
  · have hto4 : To4 ip = some (ip.drop 12) := by
      unfold To4
      rw [if_neg (by omega), if_pos ⟨hlen, hv4⟩]
    have hget : (ip.drop 12).getD 3 0 = ip.getD 15 0 := by
      simp [List.getD_eq_getElem?_getD, List.getElem?_drop]
    rw [if_pos hv4, hto4]
    dsimp only
    rw [hget]
    by_cases h1 : ip.getD 15 0 = 1
    · rw [if_neg (not_not.mpr h1), if_neg (not_not.mpr h1)]
    · rw [if_pos h1, if_pos h1]
  · have hto4 : To4 ip = none := by
      unfold To4
      rw [if_neg (by omega), if_neg (fun hh => hv4 hh.2)]
    have hto16 : To16 ip = some ip := by
      unfold To16
      rw [if_neg (by omega), if_pos hlen]
    rw [if_neg hv4, hto4]
    dsimp only
    rw [hto16]
    dsimp only
    by_cases h1 : ip.getD 14 0 * 256 + ip.getD 15 0 = 1
    · rw [if_neg (not_not.mpr h1), if_neg (not_not.mpr h1)]
    · rw [if_pos h1, if_pos h1]

/-- Claim C15.  The server's `setupWG0Linux` goes on to the link operations exactly when
the address parses as an IP literal whose last octet (IPv4) or last 16 bits (IPv6) are
1 and the MTU is 0 or lies in 800..1700; otherwise it returns an error without any link
operation.  When it goes on, the first operation is `LinkByName`, and the MTU it sets
is 1500 for the argument 0 and the argument itself otherwise (it is set as soon as the
three operations before succeed). -/
theorem setupWG0Linux_gate (env : LinkEnv) (server_privip : Bytes) (MTU : Int) :
    ((setupWG0Linux env server_privip MTU).ops ≠ [] ↔
      ((∃ ip, ParseIP server_privip = some ip ∧ endsInOne ip) ∧
        (MTU = 0 ∨ (800 ≤ MTU ∧ MTU ≤ 1700)))) ∧
    ((setupWG0Linux env server_privip MTU).ops = [] →
      (setupWG0Linux env server_privip MTU).err.isSome = true) ∧
    ((setupWG0Linux env server_privip MTU).ops ≠ [] →
      (setupWG0Linux env server_privip MTU).ops.head? = some .linkByName) ∧
    (∀ m, LinkOp.linkSetMTU m ∈ (setupWG0Linux env server_privip MTU).ops →
      m = if MTU = 0 then 1500 else MTU) ∧
    ((setupWG0Linux env server_privip MTU).ops ≠ [] → env.linkByNameOk = true →
      env.addrAddOk = true → env.linkSetUpOk = true →
      LinkOp.linkSetMTU (if MTU = 0 then 1500 else MTU) ∈
        (setupWG0Linux env server_privip MTU).ops) := by
  have hmtu : (¬ ((if MTU = 0 then 1500 else MTU) > 1700 ∨ (if MTU = 0 then 1500 else MTU) < 800))
      ↔ (MTU = 0 ∨ (800 ≤ MTU ∧ MTU ≤ 1700)) := by
    split <;> omega
  cases hp : ParseIP server_privip with
  | none =>
    have e : setupWG0Linux env server_privip MTU =
        ⟨some (.new "the given IP address is not valid"), []⟩ := by
      unfold setupWG0Linux
      rw [hp]
    rw [e]
    simp
  | some ip =>
    rw [setupWG0Linux_parsed env server_privip ip MTU hp]
    unfold endsInOne
    by_cases hv4 : ip.take 12 = v4InV6Prefix
    · rw [if_pos hv4]
      by_cases h1 : ip.getD 15 0 = 1
      · rw [if_neg (not_not.mpr h1)]
        by_cases hm : (if MTU = 0 then 1500 else MTU) > 1700 ∨
            (if MTU = 0 then 1500 else MTU) < 800
        · rw [if_pos hm]
          have : ¬ (MTU = 0 ∨ (800 ≤ MTU ∧ MTU ≤ 1700)) := fun h => hmtu.mpr h hm
          simp [this]
        · rw [if_neg hm]
          obtain ⟨c1, c2, c3, c4⟩ := configureLink_ops env
            { IP := some (ip.drop 12), Mask := CIDRMask 32 32 } (if MTU = 0 then 1500 else MTU)
          refine ⟨⟨fun _ => ⟨⟨ip, rfl, Or.inl ⟨hv4, h1⟩⟩, hmtu.mp hm⟩, fun _ => c1⟩,
            fun h => absurd h c1, fun _ => c2, c3, fun _ => c4⟩
      · rw [if_pos h1]
        have h1e := h1
        simp only [List.getD_eq_getElem?_getD] at h1e
        simp [hv4, h1e]
    · rw [if_neg hv4]
      by_cases h1 : ip.getD 14 0 * 256 + ip.getD 15 0 = 1
      · rw [if_neg (not_not.mpr h1)]
        by_cases hm : (if MTU = 0 then 1500 else MTU) > 1700 ∨
            (if MTU = 0 then 1500 else MTU) < 800
        · rw [if_pos hm]
          have : ¬ (MTU = 0 ∨ (800 ≤ MTU ∧ MTU ≤ 1700)) := fun h => hmtu.mpr h hm
          simp [this]
        · rw [if_neg hm]
          obtain ⟨c1, c2, c3, c4⟩ := configureLink_ops env
            { IP := some ip, Mask := CIDRMask 128 128 } (if MTU = 0 then 1500 else MTU)
          refine ⟨⟨fun _ => ⟨⟨ip, rfl, Or.inr ⟨hv4, h1⟩⟩, hmtu.mp hm⟩, fun _ => c1⟩,
            fun h => absurd h c1, fun _ => c2, c3, fun _ => c4⟩
      · rw [if_pos h1]
        have h1e := h1
        simp only [List.getD_eq_getElem?_getD] at h1e
        simp [hv4, h1e]


/-! ## Claim C16: the relay table -/

/-- The loop of the handler on a list that is not nil. -/
theorem scanRelayRows_some (rows : List ServerRow) :
    ∀ l : List RelayRow, scanRelayRows (some l) rows =
      some (l ++ rows.map fun r =>
        { ServerID := r.server_id, ServerName := r.server_name, PubIP := r.server_pubip,
          Port := r.server_port, PrivIP := r.server_privip, PubKey := r.server_pubkey }) := by
  induction rows with
  | nil => intro l; simp [scanRelayRows]
  | cons r rest ih =>
    intro l
    unfold scanRelayRows
    rw [Option.getD_some, ih]
    simp

/-- The part of claim C16 that holds: on a table with at least one server, a `GET` whose
query does not fail is answered with an array of one object per server, with the
fields `id`, `name` (unless empty), `pub_ip`, `port`, `priv_ip` and `pub_key` and
nothing of the pre-shared key; any other method is answered 405 without a query. -/
theorem relay_table_nonempty (servers : List ServerRow) (Method : Bytes) :
    (servers ≠ [] →
      httpHandleRelayTable ⟨false, none⟩ servers (str "GET") =
        (.json (.array (servers.map fun r =>
          [("id", .number r.server_id)] ++
            (if r.server_name.length = 0 then [] else [("name", .string r.server_name)]) ++
            [("pub_ip", .bytes r.server_pubip), ("port", .number r.server_port),
              ("priv_ip", .bytes r.server_privip), ("pub_key", .bytes r.server_pubkey)])),
          true)) ∧
    (Method ≠ str "GET" → ∀ env,
      httpHandleRelayTable env servers Method = (.error "method not allowed" 405, false)) := by
  constructor
  · intro hne
    cases servers with
    | nil => exact absurd rfl hne
    | cons r rest =>
      unfold httpHandleRelayTable
      rw [if_neg (by simp)]
      simp only [Bool.false_eq_true, if_false, delivered, Option.isSome_none]
      unfold scanRelayRows
      rw [Option.getD_none, scanRelayRows_some]
      simp [encodeRelayList, encodeRelayRow]
  · intro hm env
    unfold httpHandleRelayTable
    rw [if_pos hm]

/-- Claim C16 fails on the code for the empty table: `list` is declared as a nil slice
and nothing is appended to it, so the `GET` is answered with the JSON `null`, not with
an array. -/
theorem relay_table_empty_is_null :
    httpHandleRelayTable ⟨false, none⟩ [] (str "GET") = (.json .null, true) ∧
    httpHandleRelayTable ⟨false, none⟩ [] (str "GET") ≠ (.json (.array []), true) := by
  decide


/-! ## Claim C17: the key handed to the signature check -/

/-- A parsed key has 32 bytes. -/
theorem ParseKey_length (s k : Bytes) (h : ParseKey s = some k) : k.length = 32 := by
  unfold ParseKey NewKey KeyLen at h
  split at h
  · split at h
    · cases h; assumption
    · cases h
  · cases h

/-- A call of `AddUser` stores a 32-byte key or nothing. -/
theorem AddUser_keys32 (fault : Option DbErr) (db : UserTable)
    (username display_name pubkey latest_ip : Bytes) (h : keys32 db.rows) :
    keys32 (AddUser fault db username display_name pubkey latest_ip).table.rows := by
  unfold AddUser
  cases hk : ParseKey pubkey with
  | none => exact h
  | some wgpubkey =>
    dsimp only
    split
    · exact h
    · split
      · exact h
      · split
        · exact h
        · split
          · exact h
          · unfold insertUser
            cases fault with
            | some e =>
              dsimp only
              split <;> exact h
            | none =>
              dsimp only
              intro row hrow
              rcases List.mem_append.mp hrow with hr | hr
              · exact h row hr
              · simp at hr
                rw [hr]
                exact ParseKey_length pubkey wgpubkey hk

/-- A table filled through `AddUser` alone holds 32-byte keys. -/
theorem addUsers_keys32 (calls : List AddUserCall) :
    ∀ db : UserTable, keys32 db.rows → keys32 (addUsers db calls).rows := by
  induction calls with
  | nil => intro db h; exact h
  | cons c rest ih =>
    intro db h
    exact ih _ (AddUser_keys32 c.fault db c.username c.display_name c.pubkey c.latest_ip h)

/-- The `UPDATE` of a claim leaves the keys alone. -/
theorem setLatest_keys32 (users : List UserRow) (ip : Bytes) (uid : Nat) (h : keys32 users) :
    keys32 (setLatest users ip uid) := by
  intro row hrow
  unfold setLatest at hrow
  rw [List.mem_map] at hrow
  obtain ⟨r0, hr0, rfl⟩ := hrow
  split
  · exact h r0 hr0
  · exact h r0 hr0

/-- Events leave the keys alone. -/
theorem run_keys32 (verify : Bytes → Bytes → Bytes → Bool) (evs : List Event) :
    ∀ st : Store, keys32 st.users → keys32 (run verify st evs).users := by
  induction evs with
  | nil => intro st h; exact h
  | cons ev evs ih =>
    intro st h
    refine ih (step verify st ev) ?_
    cases ev with
    | request env r =>
      show keys32 (httpHandleReplaceIP verify env st r).2.1.users
      rcases handle_users_cases verify env st r with h1 | ⟨req, w, _, _, _, h2, _⟩
      · rw [h1]; exact h
      · rw [h2]; exact setLatest_keys32 _ _ _ h
    | sweep now => exact h

/-- The section `check IP and update` does not panic. -/
theorem checkIPAndUpdate_not_aborted (env : Env) (st : Store) (req : request) :
    (checkIPAndUpdate env st req).1 ≠ .aborted := by
  unfold checkIPAndUpdate
  cases queryHolder env.holderQueryFails st.users req.IPAddress with
  | error e => simp
  | ok occupiedBy =>
    dsimp only
    split
    · cases execUpdate env.updateFails st.users req.IPAddress req.UserID with
      | none => simp
      | some p => simp
    · simp

/-- The key the handler reads for a user is the key of a row. -/
theorem queryPubKey_mem (fails : Bool) (users : List UserRow) (uid : Nat) (key : Bytes)
    (h : queryPubKey fails users uid = some key) :
    ∃ row ∈ users, row.user_id = uid ∧ row.user_pubkey = key := by
  unfold queryPubKey at h
  split at h
  · cases h
  · obtain ⟨row, hf, hk⟩ := Option.map_eq_some'.mp h
    exact ⟨row, List.mem_of_find?_eq_some hf, by simpa using List.find?_some hf, hk⟩

/-- With 32-byte keys in the table the section `Phase 2: verify signature` does not
panic. -/
theorem verifySignature_not_aborted (verify : Bytes → Bytes → Bytes → Bool) (env : Env)
    (st : Store) (req : request) (entry : nonceEntry) (h : keys32 st.users) :
    (verifySignature verify env st req entry).1 ≠ .aborted := by
  unfold verifySignature
  cases base64Decode req.SigB64 with
  | none => simp
  | some sig =>
    cases hq : queryPubKey env.pubKeyQueryFails st.users req.UserID with
    | none => simp
    | some pubKey =>
      obtain ⟨row, hrow, _, hkey⟩ := queryPubKey_mem _ _ _ _ hq
      have hlen : pubKey.length = 32 := hkey ▸ h row hrow
      dsimp only
      rw [if_neg (not_not.mpr hlen)]
      split
      · simp
      · exact checkIPAndUpdate_not_aborted env st req

/-- With 32-byte keys in the table the handler does not panic. -/
theorem handle_not_aborted (verify : Bytes → Bytes → Bytes → Bool) (env : Env) (st : Store)
    (r : HttpRequest) (h : keys32 st.users) :
    (httpHandleReplaceIP verify env st r).1 ≠ .aborted := by
  unfold httpHandleReplaceIP
  split
  · simp
  · cases r.Body with
    | none => simp
    | some req =>
      dsimp only
      split
      · simp
      · split
        · cases env.rand <;> simp
        · cases st.globalNonceStore req.UserID with
          | none => simp
          | some entry =>
            dsimp only
            split
            · simp
            · exact verifySignature_not_aborted verify env _ req entry h

/-- Claim C17.  In a user table filled through `AddUser`, whatever `/ip/replace` requests
and sweeps have been handled since, every stored public key has 32 bytes; so the key
the handler reads for the user a request names has 32 bytes, and the handler never
ends in the panic that `ed25519.Verify` raises on a key of another length, whatever the
nonce, the signature bytes and the verdict of the check. -/
theorem signature_check_gets_32_byte_key (calls : List AddUserCall)
    (verify : Bytes → Bytes → Bytes → Bool) (st : Store)
    (hst : st.users = (addUsers ⟨[], 0⟩ calls).rows) (evs : List Event) (env : Env)
    (r : HttpRequest) :
    keys32 (run verify st evs).users ∧
    (∀ uid key, queryPubKey env.pubKeyQueryFails (run verify st evs).users uid = some key →
      key.length = 32) ∧
    (httpHandleReplaceIP verify env (run verify st evs) r).1 ≠ .aborted := by
  have h0 : keys32 st.users := by
    rw [hst]
    exact addUsers_keys32 calls ⟨[], 0⟩ (fun row hrow => by cases hrow)
  have h1 := run_keys32 verify evs st h0
  refine ⟨h1, ?_, handle_not_aborted verify env _ r h1⟩
  intro uid key hq
  obtain ⟨row, hrow, _, hkey⟩ := queryPubKey_mem _ _ _ _ hq
  exact hkey ▸ h1 row hrow

/-- An instance of claim C17: the table of `exUserTable`, with a live nonce for user `1`,
and a phase-2 request of that user with a wrong signature. -/
theorem signature_check_gets_32_byte_key_witness :
    (httpHandleReplaceIP exVerify (exEnv 500 [])
      { globalNonceStore := exStore.globalNonceStore, users := exUserTable.rows }
      (exPost 1 (str "10.0.0.5") exKeyB)).1 ≠ .aborted :=
  (signature_check_gets_32_byte_key
    [⟨none, str "alice", str "Alice", exKeyC, str "10.0.0.5"⟩] exVerify
    { globalNonceStore := exStore.globalNonceStore, users := exUserTable.rows } rfl []
    (exEnv 500 []) (exPost 1 (str "10.0.0.5") exKeyB)).2.2


/-! ## Claim C18: the client mode of the daemon -/

/-- A character of the base64 alphabet is none of `.`, `:` and `%`. -/
theorem b64val_not_separator (c x : Nat) (h : b64val c = some x) :
    c ≠ 46 ∧ c ≠ 58 ∧ c ≠ 37 := by
  refine ⟨?_, ?_, ?_⟩ <;> (intro e; subst e; simp [b64val] at h)

/-- A text that `decodeQuanta` accepts holds none of `.`, `:` and `%`. -/
theorem decodeQuanta_chars (n : Nat) :
    ∀ (q b : Bytes), q.length ≤ n → decodeQuanta q = some b →
      ∀ c ∈ q, c ≠ 46 ∧ c ≠ 58 ∧ c ≠ 37 := by
  induction n with
  | zero =>
    intro q b hlen _ c hc
    have : q = [] := List.length_eq_zero.mp (Nat.le_zero.mp hlen)
    rw [this] at hc
    cases hc
  | succ n ih =>
    intro q b hlen h c hc
    unfold decodeQuanta at h
    split at h
    · cases hc
    · rename_i a1 b1
      split at h
      · rename_i x y hx hy
        simp at hc
        rcases hc with e | e | e
        · rw [e]; exact b64val_not_separator _ _ hx
        · rw [e]; exact b64val_not_separator _ _ hy
        · rw [e]; decide
      · cases h
    · rename_i a1 b1 c1 _
      split at h
      · rename_i x y z hx hy hz
        simp at hc
        rcases hc with e | e | e | e
        · rw [e]; exact b64val_not_separator _ _ hx
        · rw [e]; exact b64val_not_separator _ _ hy
        · rw [e]; exact b64val_not_separator _ _ hz
        · rw [e]; decide
      · cases h
    · rename_i a1 b1 c1 d1 rest _ _
      split at h
      · rename_i x y z w hx hy hz hw
        split at h
        · rename_i out hout
          simp at hc
          rcases hc with e | e | e | e | e
          · rw [e]; exact b64val_not_separator _ _ hx
          · rw [e]; exact b64val_not_separator _ _ hy
          · rw [e]; exact b64val_not_separator _ _ hz
          · rw [e]; exact b64val_not_separator _ _ hw
          · exact ih rest out (by simp at hlen; omega) hout c e
        · cases h
      · cases h
    · cases h

/-- No text is both the base64 text of a 32-byte key and an IP literal. -/
theorem ParseKey_not_ParseIP (s k : Bytes) (h : ParseKey s = some k) : ParseIP s = none := by
  unfold ParseKey at h
  cases hd : base64Decode s with
  | none => rw [hd] at h; cases h
  | some b =>
    unfold base64Decode at hd
    have hchars : ∀ c ∈ s, c ≠ 46 ∧ c ≠ 58 ∧ c ≠ 37 := by
      intro c hc
      by_cases hnl : c ≠ 13 ∧ c ≠ 10
      · exact decodeQuanta_chars _ _ b (le_refl _) hd c
          (List.mem_filter.mpr ⟨hc, by simpa using hnl⟩)
      · omega
    have hfind : s.find? (fun c => c = 46 ∨ c = 58 ∨ c = 37) = none := by
      rw [List.find?_eq_none]
      intro c hc
      have := hchars c hc
      simp
      omega
    unfold ParseIP
    rw [hfind]

/-- When `createWG0Client` returns no error, its argument is not an IP literal. -/
theorem createWG0Client_ok_not_IP (env : ClientEnv) (s : Bytes)
    (h : (createWG0Client env s).err = none) : ParseIP s = none := by
  by_cases hlen : s.length ≠ 0
  · cases hk : ParseKey s with
    | some k => exact ParseKey_not_ParseIP s k hk
    | none =>
      exfalso
      unfold createWG0Client at h
      rw [if_pos hlen, hk] at h
      cases h
  · have : s = [] := List.length_eq_zero.mp (not_not.mp hlen)
    rw [this]
    rfl

/-- Claim C18.  In client mode the daemon passes the value of `GDIM_WG_PRIVIP` both as the
client address and as the private key, and for every such text and every MTU the
client's `InitializeInterface` returns an error and no device: a text that parses as a
key is not an IP literal, and the empty text, for which a key is generated, is
rejected as `invalid client IP`. -/
theorem client_mode_always_fails (env : ClientEnv) (wg_privip : Bytes) (MTU : Int) :
    mainClientMode env wg_privip MTU = client.InitializeInterface env wg_privip wg_privip MTU ∧
    (client.InitializeInterface env wg_privip wg_privip MTU).err.isSome = true ∧
    (client.InitializeInterface env wg_privip wg_privip MTU).device = false ∧
    (∀ k, ParseKey wg_privip = some k → ParseIP wg_privip = none) ∧
    setupWG0LinuxClient env.link [] MTU = ⟨some (.new "invalid client IP"), []⟩ ∧
    ((createWG0Client env []).err = none →
      client.InitializeInterface env [] [] MTU =
        ⟨false, some (.setup (.new "invalid client IP")), []⟩) := by
  have hsetup : ∀ s : Bytes, ParseIP s = none →
      setupWG0LinuxClient env.link s MTU = ⟨some (.new "invalid client IP"), []⟩ := by
    intro s hs
    unfold setupWG0LinuxClient
    rw [hs]
  have hinit : ∀ s : Bytes, (createWG0Client env s).err = none →
      client.InitializeInterface env s s MTU =
        ⟨false, some (.setup (.new "invalid client IP")), []⟩ := by
    intro s hs
    unfold client.InitializeInterface
    rw [hs]
    dsimp only
    rw [hsetup s (createWG0Client_ok_not_IP env s hs)]
  refine ⟨rfl, ?_, ?_, fun k hk => ParseKey_not_ParseIP _ k hk, hsetup [] rfl, hinit []⟩
  · cases hc : (createWG0Client env wg_privip).err with
    | none => rw [hinit wg_privip hc]; rfl
    | some e =>
      unfold client.InitializeInterface
      rw [hc]
      rfl
  · cases hc : (createWG0Client env wg_privip).err with
    | none => rw [hinit wg_privip hc]
    | some e =>
      unfold client.InitializeInterface
      rw [hc]


/-! ## Claims C4 and C5: one address under two spellings -/

/-- Two dotted-decimal IP literals that parse to the same address are the same text. -/
theorem dotted_literal_injective (a b ip : Bytes) (ha : ParseIP a = some ip)
    (hb : ParseIP b = some ip) (hca : 58 ∉ a) (hcb : 58 ∉ b) : a = b := by
  obtain ⟨r, hr, hipr⟩ := ParseIP_dotted a ip hca ha
  obtain ⟨r1, hr1, hipr1⟩ := ParseIP_dotted b ip hcb hb
  have hrr : r = r1 := List.append_cancel_left (hipr.symm.trans hipr1)
  obtain ⟨a0, a1, a2, a3, hra, hta, _⟩ := parseIPv4_text a r hr
  obtain ⟨b0, b1, b2, b3, hrb, htb, _⟩ := parseIPv4_text b r1 hr1
  rw [hta, htb, ← hra, ← hrb, hrr]

/-- Claim C5, as the handler has it.  From a user table in which no two distinct users
have the same non-empty latest address text, every sequence of `/ip/replace` requests
(and wake-ups of the purging goroutine) handled one after another leads to a user table
with the same property; in particular no two distinct users then hold the same address
written in dotted-decimal form. -/
theorem one_holder_per_address_text (verify : Bytes → Bytes → Bytes → Bool)
    (evs : List Event) (st : Store) (hinv : uniqueTextHolders st.users) :
    uniqueTextHolders (run verify st evs).users ∧
    (∀ r ∈ (run verify st evs).users, ∀ r1 ∈ (run verify st evs).users, ∀ ip,
      ParseIP r.latest_ip = some ip → ParseIP r1.latest_ip = some ip →
      58 ∉ r.latest_ip → 58 ∉ r1.latest_ip → r.user_id = r1.user_id) := by
  have h := run_uniqueTextHolders verify evs st hinv
  refine ⟨h, ?_⟩
  intro r hr r1 hr1 ip hip hip1 hc hc1
  have hsame := dotted_literal_injective _ _ ip hip hip1 hc hc1
  refine h r hr r1 hr1 hsame ?_
  intro hnil
  rw [hnil, ParseIP_nil] at hip
  cases hip

/-- An instance of claim C5 as the handler has it: the table of `exStore` after the claim
of user `1` and the challenge for user `2`. -/
theorem one_holder_per_address_text_witness :
    uniqueTextHolders (run exVerify exStore exFirstClaim).users :=
  (one_holder_per_address_text exVerify exFirstClaim exStore
    (by unfold uniqueTextHolders; decide)).1

/-- Claim C4 as stated fails on the code: user `1` claims `10.0.0.5`, which nobody holds,
and gets `free = true, written = true`; user `2` then claims the same address, written
`::ffff:10.0.0.5`, passes the nonce and signature checks and gets
`free = true, written = true` as well, not `free = false, written = false`. -/
theorem second_spelling_is_answered_free :
    (httpHandleReplaceIP exVerify (exEnv 500 []) exStore
      (exPost 1 (str "10.0.0.5") exKeyA)).1 = .result true true ∧
    ((run exVerify exStore exFirstClaim).users.map fun r => (r.user_id, r.latest_ip)) =
      [(1, str "10.0.0.5"), (2, [])] ∧
    ParseIP (str "::ffff:10.0.0.5") = ParseIP (str "10.0.0.5") ∧
    (httpHandleReplaceIP exVerify (exEnv 700 []) (run exVerify exStore exFirstClaim)
      (exPost 2 (str "::ffff:10.0.0.5") exKeyB)).1 = .result true true ∧
    (httpHandleReplaceIP exVerify (exEnv 700 []) (run exVerify exStore exFirstClaim)
      (exPost 2 (str "::ffff:10.0.0.5") exKeyB)).1 ≠ .result false false := by
  decide

/-- Claim C5 as stated fails on the code: in the table of `exStore` no two users hold the
same address; after the claim of user `1` for `10.0.0.5` and the claim of user `2` for
`::ffff:10.0.0.5`, both verified, the two users hold the same address. -/
theorem two_spellings_two_holders :
    uniqueAddressHolders exStore.users ∧
    ((run exVerify exStore (exFirstClaim ++ [exSecondClaim])).users.map
      fun r => (r.user_id, r.latest_ip)) =
      [(1, str "10.0.0.5"), (2, str "::ffff:10.0.0.5")] ∧
    ParseIP (str "10.0.0.5") = ParseIP (str "::ffff:10.0.0.5") ∧
    ¬ uniqueAddressHolders (run exVerify exStore (exFirstClaim ++ [exSecondClaim])).users := by
  unfold uniqueAddressHolders sameAddress
  decide

end GuardedIM
